import Mathlib

/-!
Verification development for the P1MeterParser repository (P1Meter.cpp,
P1MeterParser.h, CRC16.h).  The telegram buffer is modelled as a
`List Nat` of byte values; the zero bytes that `memset` leaves after the
telegram content are modelled by reading a default `0` past the end of
the list.  Machine integers are modelled as `Nat`/`Int` with explicit
`% 2 ^ w` at the points where the C code performs a narrowing
conversion.  `char` is modelled as signed 8-bit (the Arduino AVR / ESP32
targets of this library), which matters only for `CRC16_IBM_REVERSED`:
`crc ^= (uint16_t)buf[pos]` sign-extends bytes at or above 0x80.
-/

namespace P1

/-- Conversion of a (possibly negative) `int16_t` value to `uint16_t`,
as performed by the C implicit conversions. -/
def toU16 (i : Int) : Nat := (i % 65536).toNat

/-- Value of `(uint16_t)(char)b` for a raw byte `b < 256` when `char` is
signed 8-bit: bytes at or above 0x80 sign-extend to `0xFF00 + b`. -/
def byteToU16 (b : Nat) : Nat := if b < 128 then b else 65280 + b

/-- One shift step of the reversed CRC-16 loop (`CRC16.h`, lines 27-34):
if the low bit is set, shift right and XOR the polynomial 0xA001,
otherwise shift right only. -/
def crcStep (crc : Nat) : Nat :=
  if crc % 2 = 1 then (crc / 2) ^^^ 40961 else crc / 2

/-- Absorbing one byte into the running CRC (`CRC16.h`, lines 24-35):
XOR the (sign-extended, see `byteToU16`) byte into the running value,
then run 8 shift steps. -/
def crcUpdateByte (crc b : Nat) : Nat := crcStep^[8] (crc ^^^ byteToU16 b)

/-- `CRC16_IBM_REVERSED(buf, len)` from `CRC16.h`: reversed CRC-16,
polynomial 0xA001, initial value 0, over the byte list.  The `len`
argument is modelled by the caller passing `l.take len`. -/
def CRC16_IBM_REVERSED (l : List Nat) : Nat := l.foldl crcUpdateByte 0

/-- Modelled from the spec: the reference reversed CRC-16 described in
section 4.1 and in claim C2, in which each byte is XORed into the low
byte of the running 16-bit value, leaving the high byte untouched.
This is the comparison target for claim C2; it differs from
`CRC16_IBM_REVERSED` only in the absence of the signed-`char`
sign extension. -/
def crc16_reference (l : List Nat) : Nat :=
  l.foldl (fun crc b => crcStep^[8] (crc ^^^ b)) 0

/-- `strtoul(p, NULL, 10)` as used by the parser: fold the leading run
of ASCII digits into a number, stopping at the first non-digit.  (No
call site of the parser passes leading whitespace or a sign, so those
parts of `strtoul` are not modelled.) -/
def parseDecimalGo (acc : Nat) : List Nat → Nat
  | [] => acc
  | b :: bs => if 48 ≤ b ∧ b ≤ 57 then parseDecimalGo (acc * 10 + (b - 48)) bs else acc

def parseDecimal (l : List Nat) : Nat := parseDecimalGo 0 l

/-- Numeric value of an ASCII hex digit, case-insensitive, `none` for a
non-hex byte. -/
def hexVal (b : Nat) : Option Nat :=
  if 48 ≤ b ∧ b ≤ 57 then some (b - 48)
  else if 65 ≤ b ∧ b ≤ 70 then some (b - 55)
  else if 97 ≤ b ∧ b ≤ 102 then some (b - 87)
  else none

/-- `strtoul(p, NULL, 16)` as used for the CRC trailer: fold the leading
run of hex digits (case-insensitive), stopping at the first non-hex
byte. -/
def parseHexGo (acc : Nat) : List Nat → Nat
  | [] => acc
  | b :: bs => match hexVal b with
    | some v => parseHexGo (acc * 16 + v) bs
    | none => acc

def parseHex (l : List Nat) : Nat := parseHexGo 0 l

/-- Index of the first occurrence of byte `c` in a list, or -1;
the core of `strchr` over the NUL-terminated buffer content. -/
def findChr (c : Nat) : List Nat → Int
  | [] => -1
  | b :: bs => if b = c then 0 else (let r := findChr c bs; if r = -1 then -1 else r + 1)

/-- Index of the last occurrence of byte `c` in a list, or -1;
the core of `strrchr` over the NUL-terminated buffer content. -/
def findLastChr (c : Nat) : List Nat → Int
  | [] => -1
  | b :: bs =>
      let r := findLastChr c bs
      if r = -1 then (if b = c then 0 else -1) else r + 1

/-- `P1Meter::indexOf(character, startIndex)` (`P1Meter.cpp`, lines
319-323): `strchr(buffer + startIndex, c)`, returning an absolute index
or -1.  A negative `startIndex` would read before the buffer in C; the
model clamps it to 0. -/
def idxOf (buf : List Nat) (c : Nat) (startIndex : Int) : Int :=
  let r := findChr c (buf.drop startIndex.toNat)
  if r = -1 then -1 else (startIndex.toNat : Int) + r

/-- `P1Meter::lastIndexOf(character, fromIndex)` (`P1Meter.cpp`, lines
325-329): `strrchr(buffer + fromIndex, c)`. -/
def lastIdxOf (buf : List Nat) (c : Nat) (fromIndex : Nat) : Int :=
  let r := findLastChr c (buf.drop fromIndex)
  if r = -1 then -1 else (fromIndex : Int) + r

/-- `P1Meter::startsWith(findString, offset)` (`P1Meter.cpp`, lines
331-334): `strncmp(&buffer[offset], findString, strlen(findString)) == 0`.
The buffer content holds no NUL bytes and the zero padding after it can
never equal a byte of an OBIS code, so this is prefix comparison. -/
def startsWith (buf : List Nat) (pat : List Nat) (offset : Nat) : Bool :=
  pat.isPrefixOf (buf.drop offset)

/-- `P1Meter::getSubString(startIndex, endIndex)` (`P1Meter.cpp`, lines
342-349): temporarily NUL-terminate at `endIndex` and copy from
`startIndex`, i.e. the bytes at indices `[startIndex, endIndex)`. -/
def getSubString (buf : List Nat) (startIndex endIndex : Nat) : List Nat :=
  (buf.take endIndex).drop startIndex

/-- Writing byte `b` at index `i` of the accumulation buffer.  The C
buffer is a preallocated 1024-byte array; the model stores only the
written content, padding any gap with the zeroes `memset` left there. -/
def writeAt (buf : List Nat) (i : Nat) (b : Nat) : List Nat :=
  if i < buf.length then buf.set i b
  else buf ++ List.replicate (i - buf.length) 0 ++ [b]

/-- Rendering `d < 16` as an (uppercase) ASCII hex digit byte. -/
def hexDigit (d : Nat) : Nat := if d < 10 then 48 + d else 55 + d

/-- Rendering a 16-bit value as its 4-hex-digit trailer bytes. -/
def hex4 (n : Nat) : List Nat :=
  [hexDigit (n / 4096 % 16), hexDigit (n / 256 % 16), hexDigit (n / 16 % 16), hexDigit (n % 16)]

/-- Modelled from the spec: rendering a minor-unit integer into the
fixed-point wire sub-format of width `w` integer digits (the digits of
`v`, zero-padded, most significant first).  The repository contains no
encoder; section 8 of the spec (round-trip property) fixes this format:
digits, decimal point, digits. -/
def digitsPad : Nat → Nat → List Nat
  | 0, _ => []
  | w + 1, x => (48 + x / 10 ^ w % 10) :: digitsPad w (x % 10 ^ w)

/-- Modelled from the spec: the full energy wire sub-format, 6 integer
digits, a decimal point, 3 fraction digits, for a value `v` denominated
in the minor unit (0.001 kWh). -/
def renderFixed63 (v : Nat) : List Nat :=
  digitsPad 6 (v / 1000) ++ [46] ++ digitsPad 3 (v % 1000)

/-! OBIS code byte lists, from `P1MeterParser.h` lines 19-56.
Byte values are ASCII; the original string is given in each comment. -/

def OBIS_VERSION : List Nat := [49, 45, 51, 58, 48, 46, 50, 46, 56]  -- "1-3:0.2.8"

def OBIS_DATETIME : List Nat := [48, 45, 48, 58, 49, 46, 48, 46, 48]  -- "0-0:1.0.0"

def OBIS_EQUIPMENTID : List Nat := [48, 45, 48, 58, 57, 54, 46, 49, 46, 49]  -- "0-0:96.1.1"

def OBIS_TARIFF1_DELIVERED : List Nat := [49, 45, 48, 58, 49, 46, 56, 46, 49]  -- "1-0:1.8.1"

def OBIS_TARIFF2_DELIVERED : List Nat := [49, 45, 48, 58, 49, 46, 56, 46, 50]  -- "1-0:1.8.2"

def OBIS_TARIFF1_PRODUCED : List Nat := [49, 45, 48, 58, 50, 46, 56, 46, 49]  -- "1-0:2.8.1"

def OBIS_TARIFF2_PRODUCED : List Nat := [49, 45, 48, 58, 50, 46, 56, 46, 50]  -- "1-0:2.8.2"

def OBIS_TARIFF_INDICATOR : List Nat := [48, 45, 48, 58, 57, 54, 46, 49, 52, 46, 48]  -- "0-0:96.14.0"

def OBIS_ACTUAL_DELIVERED : List Nat := [49, 45, 48, 58, 49, 46, 55, 46, 48]  -- "1-0:1.7.0"

def OBIS_ACTUAL_PRODUCED : List Nat := [49, 45, 48, 58, 50, 46, 55, 46, 48]  -- "1-0:2.7.0"

def OBIS_NUMBER_POWER_FAIL : List Nat := [48, 45, 48, 58, 57, 54, 46, 55, 46, 50, 49]  -- "0-0:96.7.21"

def OBIS_LONG_POWER_FAIL : List Nat := [48, 45, 48, 58, 57, 54, 46, 55, 46, 57]  -- "0-0:96.7.9"

def OBIS_POWER_LOG : List Nat := [49, 45, 48, 58, 57, 57, 46, 57, 55, 46, 48]  -- "1-0:99.97.0"

def OBIS_NUM_VOLTAGE_SAG_L1 : List Nat := [49, 45, 48, 58, 51, 50, 46, 51, 50, 46, 48]  -- "1-0:32.32.0"

def OBIS_NUM_VOLTAGE_SAG_L2 : List Nat := [49, 45, 48, 58, 53, 50, 46, 51, 50, 46, 48]  -- "1-0:52.32.0"

def OBIS_NUM_VOLTAGE_SAG_L3 : List Nat := [49, 45, 48, 58, 55, 50, 46, 51, 50, 46, 48]  -- "1-0:72.32.0"

def OBIS_NUM_VOLTAGE_SWL_L1 : List Nat := [49, 45, 48, 58, 51, 50, 46, 51, 54, 46, 48]  -- "1-0:32.36.0"

def OBIS_NUM_VOLTAGE_SWL_L2 : List Nat := [49, 45, 48, 58, 53, 50, 46, 51, 54, 46, 48]  -- "1-0:52.36.0"

def OBIS_NUM_VOLTAGE_SWL_L3 : List Nat := [49, 45, 48, 58, 55, 50, 46, 51, 54, 46, 48]  -- "1-0:72.36.0"

def OBIS_TEXT_MESSAGE : List Nat := [48, 45, 48, 58, 57, 54, 46, 49, 51, 46, 48]  -- "0-0:96.13.0"

def OBIS_VOLTAGE_L1 : List Nat := [49, 45, 48, 58, 51, 50, 46, 55, 46, 48]  -- "1-0:32.7.0"

def OBIS_VOLTAGE_L2 : List Nat := [49, 45, 48, 58, 53, 50, 46, 55, 46, 48]  -- "1-0:52.7.0"

def OBIS_VOLTAGE_L3 : List Nat := [49, 45, 48, 58, 55, 50, 46, 55, 46, 48]  -- "1-0:72.7.0"

def OBIS_CURRENT_L1 : List Nat := [49, 45, 48, 58, 51, 49, 46, 55, 46, 48]  -- "1-0:31.7.0"

def OBIS_CURRENT_L2 : List Nat := [49, 45, 48, 58, 53, 49, 46, 55, 46, 48]  -- "1-0:51.7.0"

def OBIS_CURRENT_L3 : List Nat := [49, 45, 48, 58, 55, 49, 46, 55, 46, 48]  -- "1-0:71.7.0"

def OBIS_POWER_POS_L1 : List Nat := [49, 45, 48, 58, 50, 49, 46, 55, 46, 48]  -- "1-0:21.7.0"

def OBIS_POWER_POS_L2 : List Nat := [49, 45, 48, 58, 52, 49, 46, 55, 46, 48]  -- "1-0:41.7.0"

def OBIS_POWER_POS_L3 : List Nat := [49, 45, 48, 58, 54, 49, 46, 55, 46, 48]  -- "1-0:61.7.0"

def OBIS_POWER_NEG_L1 : List Nat := [49, 45, 48, 58, 50, 50, 46, 55, 46, 48]  -- "1-0:22.7.0"

def OBIS_POWER_NEG_L2 : List Nat := [49, 45, 48, 58, 52, 50, 46, 55, 46, 48]  -- "1-0:42.7.0"

def OBIS_POWER_NEG_L3 : List Nat := [49, 45, 48, 58, 54, 50, 46, 55, 46, 48]  -- "1-0:62.7.0"

def OBIS_DEVICE_TYPE : List Nat := [58, 50, 52, 46, 49, 46, 48]  -- ":24.1.0"

def OBIS_EQUIPMENT_IDENT : List Nat := [58, 57, 54, 46, 49, 46, 48]  -- ":96.1.0"

def OBIS_DEVICE_VALUE : List Nat := [58, 50, 52, 46, 50, 46, 49]  -- ":24.2.1"

/-- `PowerFailureLogStruct` from `P1MeterParser.h` lines 73-76.
`Duration` is a C `double` parsed with `strtod`; every duration in a
telegram is an integer number of seconds followed by `*s`, and no claim
depends on a fractional value, so the model keeps the leading decimal
digit run. -/
structure PowerFailureLogStruct where
  DateTime : List Nat
  Duration : Nat
deriving DecidableEq

/-- `MBusReading` from `P1MeterParser.h` lines 78-82. -/
structure MBusReading where
  DateTime : List Nat
  Value : Nat
  Unit : List Nat
deriving DecidableEq

/-- `MBusDevice` from `P1MeterParser.h` lines 84-88.  `DeviceType` is
the numeric value behind the `EMBusDeviceType` enum cast. -/
structure MBusDevice where
  DeviceType : Nat
  EquipmentID : List Nat
  Reading : MBusReading
deriving DecidableEq

/-- `P1Data` from `P1MeterParser.h` lines 94-120.  `String` members are
byte lists; fixed arrays of size 3 are lists of length 3. -/
structure P1Data where
  HeaderInfo : List Nat
  P1Version : Nat
  DateTime : List Nat
  EquipmentID : List Nat
  DeliveredTariff1 : Nat
  DeliveredTariff2 : Nat
  ProducedTariff1 : Nat
  ProducedTariff2 : Nat
  CurrentTariff : Nat
  ActualDelivered : Nat
  ActualProduced : Nat
  PowerFailures : Nat
  LongPowerFailures : Nat
  PowerFailureLogs : List PowerFailureLogStruct
  VoltageSags : List Nat
  VoltageSwells : List Nat
  TextMessage : List Nat
  Voltage : List Nat
  Current : List Nat
  PowerDelivered : List Nat
  PowerProduced : List Nat
  MBusDevices : List MBusDevice
  CRC : Nat
  ValidCRC : Bool
  NumberOfMBusDevices : Nat
deriving DecidableEq

def defaultMBusReading : MBusReading := ⟨[], 0, []⟩

def defaultMBusDevice : MBusDevice := ⟨0, [], defaultMBusReading⟩

def defaultLog : PowerFailureLogStruct := ⟨[], 0⟩

/-- The all-zero `P1Data`.  (In C the member `data` of a fresh `P1Meter`
is default-initialized, leaving POD scalars indeterminate; the model
starts from zeroes.) -/
def defaultP1Data : P1Data :=
  { HeaderInfo := [], P1Version := 0, DateTime := [], EquipmentID := []
    DeliveredTariff1 := 0, DeliveredTariff2 := 0
    ProducedTariff1 := 0, ProducedTariff2 := 0
    CurrentTariff := 0, ActualDelivered := 0, ActualProduced := 0
    PowerFailures := 0, LongPowerFailures := 0
    PowerFailureLogs := [defaultLog, defaultLog, defaultLog]
    VoltageSags := [0, 0, 0], VoltageSwells := [0, 0, 0]
    TextMessage := [], Voltage := [0, 0, 0], Current := [0, 0, 0]
    PowerDelivered := [0, 0, 0], PowerProduced := [0, 0, 0]
    MBusDevices := [defaultMBusDevice, defaultMBusDevice, defaultMBusDevice]
    CRC := 0, ValidCRC := false, NumberOfMBusDevices := 0 }

/-- State of a `P1Meter` object: the telegram buffer, `bufferIndex`
(`int16_t`, never negative on any modelled path), `DataReady`, and the
member `data` reused across telegrams. -/
structure MeterState where
  buffer : List Nat
  bufferIndex : Nat
  dataReady : Bool
  data : P1Data
deriving DecidableEq

def freshMeter : MeterState := ⟨[], 0, false, defaultP1Data⟩

/-- `P1Meter::GetBufferLength()` (`P1Meter.cpp`, lines 308-310):
returns `bufferIndex`. -/
def getBufferLength (st : MeterState) : Nat := st.bufferIndex

/-- `P1Meter::calcCRC16(buffer, len)` (`P1Meter.cpp`, lines 315-317). -/
def calcCRC16 (buf : List Nat) (len : Nat) : Nat := CRC16_IBM_REVERSED (buf.take len)

/-- The plain-integer decode rule used by many branches of
`ProcessTelegram`: `strtoul(&buffer[indexOf('(', startOfLine) + 1], NULL, 10)`. -/
def plainVal (buf : List Nat) (s : Int) : Nat :=
  parseDecimal (buf.drop (idxOf buf 40 s + 1).toNat)

/-- The fixed-point decode rule of `ProcessTelegram` (e.g. lines
126-129): `memset(valueBuffer, 0, 10)`, copy `w` bytes from after the
first `(` of the line, copy `f` bytes to `&valueBuffer[w]` from after
the `.` found from `startOfLine + 10`, then `strtoul(valueBuffer)`.
If fewer than `w` bytes are available the NUL gap from the `memset`
remains, which stops `strtoul`; hence the explicit zero padding. -/
def fixedVal (buf : List Nat) (s : Int) (w f : Nat) : Nat :=
  let intPart := (buf.drop (idxOf buf 40 s + 1).toNat).take w
  let fracPart := (buf.drop (idxOf buf 46 (s + 10) + 1).toNat).take f
  parseDecimal (intPart ++ List.replicate (w - intPart.length) 0 ++ fracPart)

/-- The loop body of the `OBIS_POWER_LOG` branch (`P1Meter.cpp`, lines
170-175), iterated the declared number of times.  `index1`/`index2` are
`uint16_t`, so a failed `indexOf` (-1) becomes 65535, which in the model
reads the empty region past the content.  Returns the sequence of
`(DateTime, Duration)` writes in loop order; the write of iteration `i`
goes to `PowerFailureLogs[i]`.  `strtod` is modelled by its leading
decimal digit run, see `PowerFailureLogStruct`. -/
def powerLogGo (buf : List Nat) : Nat → Nat → List PowerFailureLogStruct
  | 0, _ => []
  | k + 1, index2 =>
      let index1 := toU16 (idxOf buf 40 ((index2 : Int) + 1))
      let dt := (buf.drop (index1 + 1)).take 13
      let index2' := toU16 (idxOf buf 40 ((index1 : Int) + 1))
      let dur := parseDecimal (buf.drop (index2' + 1))
      ⟨dt, dur⟩ :: powerLogGo buf k index2'

/-- `index1` of the `OBIS_POWER_LOG` branch: `uint16_t index1 =
indexOf('(', startOfLine) + 1`. -/
def powerLogIndex1 (buf : List Nat) (s : Int) : Nat := toU16 (idxOf buf 40 s + 1)

/-- `uint8_t numberOfLogs = strtoul(&buffer[index1], NULL, 10)`:
the declared occurrence count, narrowed to `uint8_t`. -/
def powerLogCount (buf : List Nat) (s : Int) : Nat :=
  parseDecimal (buf.drop (powerLogIndex1 buf s)) % 256

/-- All `(DateTime, Duration)` writes performed by the
`OBIS_POWER_LOG` branch: exactly `numberOfLogs` of them, with no
capacity check; the write of position `i` in this list targets
`PowerFailureLogs[i]`. -/
def powerLogEntries (buf : List Nat) (s : Int) : List PowerFailureLogStruct :=
  powerLogGo buf (powerLogCount buf s) ((powerLogIndex1 buf s + 3) % 65536)

/-- Applying the power-log writes to the 3-slot array.  In C a write at
index 3 or above runs past `PowerFailureLogs[3]` into adjacent `P1Data`
memory (undefined behaviour); `List.set` drops such writes, so the
out-of-bounds corruption itself is not representable — the write trace
`powerLogEntries` records that those writes are attempted. -/
def applyLogWrites (arr : List PowerFailureLogStruct)
    (ws : List PowerFailureLogStruct) : List PowerFailureLogStruct :=
  ws.enum.foldl (fun a p => a.set p.1 p.2) arr

/-- `(int8_t)` narrowing of a parsed device number. -/
def toI8 (n : Nat) : Int :=
  if n % 256 < 128 then ((n % 256 : Nat) : Int) else ((n % 256 : Nat) : Int) - 256

/-- `int8_t currentDeviceNumber = strtoul(&buffer[indexOf('-',
startOfLine) + 1], NULL, 10)` from the sub-device branches. -/
def mbusDeviceNumber (buf : List Nat) (s : Int) : Int :=
  toI8 (parseDecimal (buf.drop (idxOf buf 45 s + 1).toNat))

/-- Update of `MBusDevices[i]`.  An `i` outside 0..2 is an out-of-bounds
write (undefined behaviour) in C; the model drops it. -/
def setMBus (l : List MBusDevice) (i : Int) (f : MBusDevice → MBusDevice) : List MBusDevice :=
  if 0 ≤ i then l.set i.toNat (f (l.getD i.toNat defaultMBusDevice)) else l

/-- The body of the `OBIS_DEVICE_VALUE` branch (`P1Meter.cpp`, lines
260-272): timestamp from the first parenthesis group, a 5+3 fixed-point
magnitude from the second, and the unit text between `*` and `)`. -/
def mbusValueReading (buf : List Nat) (s : Int) : MBusReading :=
  let v1 := idxOf buf 40 s
  let dt := (buf.drop (v1 + 1).toNat).take 13
  let v2 := idxOf buf 40 (v1 + 1)
  let intPart := (buf.drop (v2 + 1).toNat).take 5
  let fracPart := (buf.drop (idxOf buf 46 (v2 + 1) + 1).toNat).take 3
  let value := parseDecimal (intPart ++ List.replicate (5 - intPart.length) 0 ++ fracPart) % 4294967296
  let v3 := idxOf buf 42 (v2 + 1)
  let unit := (buf.drop (v3 + 1).toNat).take (idxOf buf 41 v3 - v3 - 1).toNat
  ⟨dt, value, unit⟩

/-- One iteration of the line-dispatch loop of
`P1Meter::ProcessTelegram` (`P1Meter.cpp`, lines 116-273): the chain of
`startsWith` tests, in source order, applied at `startOfLine` = `s` with
the current `endOfLine` = `e`.  Note that the source tests
`OBIS_POWER_POS_L1/L2/L3` a second time (lines 237-250) for the
`PowerProduced` assignments — dead branches, reproduced as written —
and never tests `OBIS_POWER_NEG_L1/L2/L3`. -/
def processDataLine (buf : List Nat) (s e : Int) (d : P1Data) : P1Data :=
  if startsWith buf OBIS_VERSION (toU16 s) then
    {d with P1Version := plainVal buf s % 256}
  else if startsWith buf OBIS_DATETIME (toU16 s) then
    {d with DateTime := (buf.drop (idxOf buf 40 s + 1).toNat).take 13}
  else if startsWith buf OBIS_EQUIPMENTID (toU16 s) then
    {d with EquipmentID := getSubString buf (toU16 (idxOf buf 40 s + 1)) (toU16 (e - 2))}
  else if startsWith buf OBIS_TARIFF1_DELIVERED (toU16 s) then
    {d with DeliveredTariff1 := fixedVal buf s 6 3 % 4294967296}
  else if startsWith buf OBIS_TARIFF2_DELIVERED (toU16 s) then
    {d with DeliveredTariff2 := fixedVal buf s 6 3 % 4294967296}
  else if startsWith buf OBIS_TARIFF1_PRODUCED (toU16 s) then
    {d with ProducedTariff1 := fixedVal buf s 6 3 % 4294967296}
  else if startsWith buf OBIS_TARIFF2_PRODUCED (toU16 s) then
    {d with ProducedTariff2 := fixedVal buf s 6 3 % 4294967296}
  else if startsWith buf OBIS_TARIFF_INDICATOR (toU16 s) then
    {d with CurrentTariff := plainVal buf s % 256}
  else if startsWith buf OBIS_ACTUAL_DELIVERED (toU16 s) then
    {d with ActualDelivered := fixedVal buf s 2 3 % 4294967296}
  else if startsWith buf OBIS_ACTUAL_PRODUCED (toU16 s) then
    {d with ActualProduced := fixedVal buf s 2 3 % 4294967296}
  else if startsWith buf OBIS_NUMBER_POWER_FAIL (toU16 s) then
    {d with PowerFailures := plainVal buf s % 4294967296}
  else if startsWith buf OBIS_LONG_POWER_FAIL (toU16 s) then
    {d with LongPowerFailures := plainVal buf s % 4294967296}
  else if startsWith buf OBIS_POWER_LOG (toU16 s) then
    {d with PowerFailureLogs := applyLogWrites d.PowerFailureLogs (powerLogEntries buf s)}
  else if startsWith buf OBIS_NUM_VOLTAGE_SAG_L1 (toU16 s) then
    {d with VoltageSags := d.VoltageSags.set 0 (plainVal buf s % 4294967296)}
  else if startsWith buf OBIS_NUM_VOLTAGE_SAG_L2 (toU16 s) then
    {d with VoltageSags := d.VoltageSags.set 1 (plainVal buf s % 4294967296)}
  else if startsWith buf OBIS_NUM_VOLTAGE_SAG_L3 (toU16 s) then
    {d with VoltageSags := d.VoltageSags.set 2 (plainVal buf s % 4294967296)}
  else if startsWith buf OBIS_NUM_VOLTAGE_SWL_L1 (toU16 s) then
    {d with VoltageSwells := d.VoltageSwells.set 0 (plainVal buf s % 4294967296)}
  else if startsWith buf OBIS_NUM_VOLTAGE_SWL_L2 (toU16 s) then
    {d with VoltageSwells := d.VoltageSwells.set 1 (plainVal buf s % 4294967296)}
  else if startsWith buf OBIS_NUM_VOLTAGE_SWL_L3 (toU16 s) then
    {d with VoltageSwells := d.VoltageSwells.set 2 (plainVal buf s % 4294967296)}
  else if startsWith buf OBIS_TEXT_MESSAGE (toU16 s) then
    {d with TextMessage := getSubString buf (toU16 (idxOf buf 40 s + 1)) (toU16 (e - 2))}
  else if startsWith buf OBIS_VOLTAGE_L1 (toU16 s) then
    {d with Voltage := d.Voltage.set 0 (fixedVal buf s 3 1 % 4294967296)}
  else if startsWith buf OBIS_VOLTAGE_L2 (toU16 s) then
    {d with Voltage := d.Voltage.set 1 (fixedVal buf s 3 1 % 4294967296)}
  else if startsWith buf OBIS_VOLTAGE_L3 (toU16 s) then
    {d with Voltage := d.Voltage.set 2 (fixedVal buf s 3 1 % 4294967296)}
  else if startsWith buf OBIS_CURRENT_L1 (toU16 s) then
    {d with Current := d.Current.set 0 (plainVal buf s % 4294967296)}
  else if startsWith buf OBIS_CURRENT_L2 (toU16 s) then
    {d with Current := d.Current.set 1 (plainVal buf s % 4294967296)}
  else if startsWith buf OBIS_CURRENT_L3 (toU16 s) then
    {d with Current := d.Current.set 2 (plainVal buf s % 4294967296)}
  else if startsWith buf OBIS_POWER_POS_L1 (toU16 s) then
    {d with PowerDelivered := d.PowerDelivered.set 0 (fixedVal buf s 2 3 % 4294967296)}
  else if startsWith buf OBIS_POWER_POS_L2 (toU16 s) then
    {d with PowerDelivered := d.PowerDelivered.set 1 (fixedVal buf s 2 3 % 4294967296)}
  else if startsWith buf OBIS_POWER_POS_L3 (toU16 s) then
    {d with PowerDelivered := d.PowerDelivered.set 2 (fixedVal buf s 2 3 % 4294967296)}
  else if startsWith buf OBIS_POWER_POS_L1 (toU16 s) then
    {d with PowerProduced := d.PowerProduced.set 0 (fixedVal buf s 2 3 % 4294967296)}
  else if startsWith buf OBIS_POWER_POS_L2 (toU16 s) then
    {d with PowerProduced := d.PowerProduced.set 1 (fixedVal buf s 2 3 % 4294967296)}
  else if startsWith buf OBIS_POWER_POS_L3 (toU16 s) then
    {d with PowerProduced := d.PowerProduced.set 2 (fixedVal buf s 2 3 % 4294967296)}
  else if startsWith buf OBIS_DEVICE_TYPE (toU16 (s + 3)) then
    {d with MBusDevices := (setMBus d.MBusDevices (mbusDeviceNumber buf s - 1)
      (fun dev => {dev with DeviceType := plainVal buf s % 256}))}
  else if startsWith buf OBIS_EQUIPMENT_IDENT (toU16 (s + 3)) then
    {d with MBusDevices := (setMBus d.MBusDevices (mbusDeviceNumber buf s - 1)
      (fun dev => {dev with EquipmentID := getSubString buf (toU16 (idxOf buf 40 s + 1)) (toU16 (e - 2))}))}
  else if startsWith buf OBIS_DEVICE_VALUE (toU16 (s + 3)) then
    {d with MBusDevices := (setMBus d.MBusDevices (mbusDeviceNumber buf s - 1)
      (fun dev => {dev with Reading := mbusValueReading buf s}))}
  else d

/-- The `while (endOfLine < bufferIndex && endOfLine != -1)` loop of
`ProcessTelegram` (`P1Meter.cpp`, lines 110-274).  The fuel argument
only bounds the recursion; every call passes `buf.length + 2`, which
exceeds the possible number of iterations since each iteration either
moves `endOfLine` to a strictly later newline index (below
`buf.length`) or to -1, after which the loop exits. -/
def linesLoop (buf : List Nat) (bufferIndex : Int) : Nat → Int → P1Data → P1Data
  | 0, _, d => d
  | fuel + 1, endOfLine, d =>
      if endOfLine < bufferIndex ∧ endOfLine ≠ -1 then
        let s := endOfLine + 1
        let e := idxOf buf 10 (s + 1)
        linesLoop buf bufferIndex fuel e (processDataLine buf s e d)
      else d

/-- `P1Meter::ProcessTelegram()` (`P1Meter.cpp`, lines 97-292): the
whole decode — MBus-device count from the last `-`, header text, the
line-dispatch loop, the CRC computation and check, then `memset` of the
buffer (modelled as the empty content list: all bytes zero) and
`DataReady = false`.  `bufferIndex` is not touched.  Returns the
`P1Data` by value together with the post-state. -/
def processTelegram (st : MeterState) : P1Data × MeterState :=
  let buf := st.buffer
  let d0 := {st.data with
    NumberOfMBusDevices := parseDecimal (buf.drop (lastIdxOf buf 45 0 + 1).toNat) % 256}
  let startOfLine := idxOf buf 47 0
  let endOfLine := idxOf buf 10 0
  let d1 := {d0 with HeaderInfo := getSubString buf (toU16 (startOfLine + 1)) (toU16 endOfLine)}
  let d2 := linesLoop buf (st.bufferIndex : Int) (buf.length + 2) endOfLine d1
  let crcIndex := toU16 (idxOf buf 33 0)
  let calculatedCRC := calcCRC16 buf ((crcIndex + 1) % 65536)
  let messageCRC := (buf.drop (crcIndex + 1)).take 4
  let d3 := {d2 with CRC := parseHex messageCRC}
  let d4 := {d3 with ValidCRC := d3.CRC == calculatedCRC}
  (d4, {st with buffer := [], dataReady := false, data := d4})

/-- The inner `while (!DataReady)` loop of `P1Meter::ReceiveTelegram`
(`P1Meter.cpp`, lines 73-88): write each arriving byte at `bufferIndex`,
then mark `DataReady` if the byte 6 positions behind the write position
is `!`, else increment `bufferIndex`.  For `idx < 6` the C code reads
before the buffer (undefined behaviour); the model truncates the index
to 0, which reads the stored `/` and therefore never fires — the
behaviour the state machine of the spec assumes.  In C the loop blocks
until completion; an exhausted stream returns the in-flight state with
`DataReady` still false.  Returns (buffer, bufferIndex, DataReady,
unconsumed stream). -/
def receiveLoop : List Nat → List Nat → Nat → List Nat × Nat × Bool × List Nat
  | [], buf, idx => (buf, idx, false, [])
  | b :: rest, buf, idx =>
      let buf' := writeAt buf idx b
      if buf'.getD (idx - 6) 0 = 33 then (buf', idx, true, rest)
      else receiveLoop rest buf' (idx + 1)

/-- `P1Meter::ReceiveTelegram()` (`P1Meter.cpp`, lines 56-90), minus
the CTS pin handling (external flow-control collaborator): read one
byte; a byte other than `/` is discarded; a `/` resets `bufferIndex`
to the start and enters the blocking loop (which runs zero iterations
when `DataReady` is already set).  Returns the new state and the
unconsumed stream. -/
def receiveTelegram (st : MeterState) (stream : List Nat) : MeterState × List Nat :=
  match stream with
  | [] => (st, [])
  | b :: rest =>
      if b ≠ 47 then (st, rest)
      else
        let buf1 := writeAt st.buffer 0 47
        if st.dataReady then ({st with buffer := buf1, bufferIndex := 1}, rest)
        else
          let r := receiveLoop rest buf1 1
          ({st with buffer := r.1, bufferIndex := r.2.1, dataReady := r.2.2.1}, r.2.2.2)

/-! Generic list access lemmas used throughout. -/

lemma getD_append_left {l r : List Nat} {i : Nat} (h : i < l.length) (d : Nat) :
    (l ++ r).getD i d = l.getD i d := by
  induction l generalizing i with
  | nil => simp at h
  | cons x xs ih =>
      cases i with
      | zero => rfl
      | succ k => simpa using ih (by simpa using h)

lemma getD_append_right_head (l : List Nat) (b : Nat) (r : List Nat) (d : Nat) :
    (l ++ b :: r).getD l.length d = b := by
  induction l with
  | nil => rfl
  | cons x xs ih => simpa using ih

lemma getD_mem {l : List Nat} {i : Nat} (h : i < l.length) (d : Nat) :
    l.getD i d ∈ l := by
  induction l generalizing i with
  | nil => simp at h
  | cons x xs ih =>
      cases i with
      | zero => simp
      | succ k => exact List.mem_cons_of_mem x (ih (by simpa using h))

lemma drop_append_add (l r : List Nat) (k : Nat) :
    (l ++ r).drop (l.length + k) = r.drop k := by
  rw [← List.drop_drop, List.drop_left]

lemma take_append_le {n : Nat} {l : List Nat} (r : List Nat) (h : n ≤ l.length) :
    (l ++ r).take n = l.take n := by
  induction l generalizing n with
  | nil =>
      have hn : n = 0 := by simpa using h
      subst hn
      simp
  | cons x xs ih =>
      cases n with
      | zero => rfl
      | succ k => simpa using ih (by simpa using h)

lemma drop_append_le {n : Nat} {l : List Nat} (r : List Nat) (h : n ≤ l.length) :
    (l ++ r).drop n = l.drop n ++ r := by
  induction l generalizing n with
  | nil =>
      have hn : n = 0 := by simpa using h
      subst hn
      simp
  | cons x xs ih =>
      cases n with
      | zero => rfl
      | succ k => simpa using ih (by simpa using h)

/-! Lemmas about the CRC engine: all intermediate values stay below
2^16, each shift step is injective there, and consequently two byte
lists differing in exactly one byte yield different CRCs. -/

lemma crcStep_lt {a : Nat} (h : a < 65536) : crcStep a < 65536 := by
  unfold crcStep
  split
  · have hx : a / 2 < 2 ^ 16 := by omega
    have hy : (40961 : Nat) < 2 ^ 16 := by norm_num
    have := Nat.xor_lt_two_pow hx hy
    omega
  · omega

lemma crcStep_inj {a b : Nat} (ha : a < 65536) (hb : b < 65536)
    (h : crcStep a = crcStep b) : a = b := by
  unfold crcStep at h
  rcases Nat.mod_two_eq_zero_or_one a with h1 | h1 <;>
    rcases Nat.mod_two_eq_zero_or_one b with h2 | h2
  · simp [h1, h2] at h
    omega
  · simp [h1, h2] at h
    exfalso
    have hb2 : b / 2 < 2 ^ 15 := by omega
    have ha2 : a / 2 < 2 ^ 15 := by omega
    have t1 : (b / 2 ^^^ 40961).testBit 15 = true := by
      rw [Nat.testBit_xor, Nat.testBit_lt_two_pow hb2]
      decide
    have t2 : (a / 2).testBit 15 = false := Nat.testBit_lt_two_pow ha2
    rw [h, t1] at t2
    simp at t2
  · simp [h1, h2] at h
    exfalso
    have hb2 : b / 2 < 2 ^ 15 := by omega
    have ha2 : a / 2 < 2 ^ 15 := by omega
    have t1 : (a / 2 ^^^ 40961).testBit 15 = true := by
      rw [Nat.testBit_xor, Nat.testBit_lt_two_pow ha2]
      decide
    have t2 : (b / 2).testBit 15 = false := Nat.testBit_lt_two_pow hb2
    rw [← h, t1] at t2
    simp at t2
  · simp [h1, h2] at h
    have h3 : a / 2 = b / 2 := by
      have := congrArg (fun z => z ^^^ 40961) h
      simpa [Nat.xor_assoc] using this
    omega

lemma crcSteps_lt (n : Nat) {a : Nat} (h : a < 65536) : crcStep^[n] a < 65536 := by
  induction n generalizing a with
  | zero => simpa using h
  | succ k ih =>
      rw [Function.iterate_succ_apply]
      exact ih (crcStep_lt h)

lemma crcSteps_inj (n : Nat) {a b : Nat} (ha : a < 65536) (hb : b < 65536)
    (h : crcStep^[n] a = crcStep^[n] b) : a = b := by
  induction n generalizing a b with
  | zero => simpa using h
  | succ k ih =>
      rw [Function.iterate_succ_apply, Function.iterate_succ_apply] at h
      exact crcStep_inj ha hb (ih (crcStep_lt ha) (crcStep_lt hb) h)

lemma byteToU16_lt {b : Nat} (h : b < 256) : byteToU16 b < 65536 := by
  unfold byteToU16
  split <;> omega

lemma byteToU16_inj {b c : Nat} (hb : b < 256) (hc : c < 256)
    (h : byteToU16 b = byteToU16 c) : b = c := by
  unfold byteToU16 at h
  split at h <;> split at h <;> omega

lemma xor_byte_lt {a b : Nat} (ha : a < 65536) (hb : b < 256) :
    a ^^^ byteToU16 b < 65536 := by
  have h1 : a < 2 ^ 16 := by omega
  have h2 : byteToU16 b < 2 ^ 16 := by
    have := byteToU16_lt hb
    omega
  have := Nat.xor_lt_two_pow h1 h2
  omega

lemma crcUpdateByte_lt {a b : Nat} (ha : a < 65536) (hb : b < 256) :
    crcUpdateByte a b < 65536 := by
  unfold crcUpdateByte
  exact crcSteps_lt 8 (xor_byte_lt ha hb)

lemma xor_left_cancel {a e f : Nat} (h : a ^^^ e = a ^^^ f) : e = f := by
  have := congrArg (fun z => a ^^^ z) h
  simpa [← Nat.xor_assoc] using this

lemma crcUpdateByte_inj_left {a a' b : Nat} (ha : a < 65536) (ha' : a' < 65536)
    (hb : b < 256) (h : crcUpdateByte a b = crcUpdateByte a' b) : a = a' := by
  unfold crcUpdateByte at h
  have hx : a ^^^ byteToU16 b = a' ^^^ byteToU16 b :=
    crcSteps_inj 8 (xor_byte_lt ha hb) (xor_byte_lt ha' hb) h
  have := congrArg (fun z => z ^^^ byteToU16 b) hx
  simpa [Nat.xor_assoc] using this

lemma crcUpdateByte_ne_byte {a b c : Nat} (ha : a < 65536) (hb : b < 256)
    (hc : c < 256) (hbc : b ≠ c) : crcUpdateByte a b ≠ crcUpdateByte a c := by
  unfold crcUpdateByte
  intro h
  have hx : a ^^^ byteToU16 b = a ^^^ byteToU16 c :=
    crcSteps_inj 8 (xor_byte_lt ha hb) (xor_byte_lt ha hc) h
  exact hbc (byteToU16_inj hb hc (xor_left_cancel hx))

lemma foldl_crc_lt (l : List Nat) (hl : ∀ x ∈ l, x < 256) {a : Nat} (ha : a < 65536) :
    l.foldl crcUpdateByte a < 65536 := by
  induction l generalizing a with
  | nil => simpa using ha
  | cons x xs ih =>
      simp only [List.foldl_cons]
      exact ih (fun y hy => hl y (List.mem_cons_of_mem x hy))
        (crcUpdateByte_lt ha (hl x (by simp)))

lemma foldl_crc_ne (l : List Nat) (hl : ∀ x ∈ l, x < 256) {a b : Nat}
    (ha : a < 65536) (hb : b < 65536) (hab : a ≠ b) :
    l.foldl crcUpdateByte a ≠ l.foldl crcUpdateByte b := by
  induction l generalizing a b with
  | nil => simpa using hab
  | cons x xs ih =>
      simp only [List.foldl_cons]
      have hx : x < 256 := hl x (by simp)
      exact ih (fun y hy => hl y (List.mem_cons_of_mem x hy))
        (crcUpdateByte_lt ha hx) (crcUpdateByte_lt hb hx)
        (fun h => hab (crcUpdateByte_inj_left ha hb hx h))

lemma CRC16_lt (l : List Nat) (hl : ∀ x ∈ l, x < 256) : CRC16_IBM_REVERSED l < 65536 := by
  unfold CRC16_IBM_REVERSED
  exact foldl_crc_lt l hl (by omega)

/-- Changing exactly one byte of a byte list changes its CRC. -/
lemma crc_single_change {pre post : List Nat} {b c : Nat}
    (hpre : ∀ x ∈ pre, x < 256) (hpost : ∀ x ∈ post, x < 256)
    (hb : b < 256) (hc : c < 256) (hbc : b ≠ c) :
    CRC16_IBM_REVERSED (pre ++ b :: post) ≠ CRC16_IBM_REVERSED (pre ++ c :: post) := by
  unfold CRC16_IBM_REVERSED
  rw [List.foldl_append, List.foldl_append, List.foldl_cons, List.foldl_cons]
  have hs : pre.foldl crcUpdateByte 0 < 65536 := foldl_crc_lt pre hpre (by omega)
  exact foldl_crc_ne post hpost (crcUpdateByte_lt hs hb) (crcUpdateByte_lt hs hc)
    (crcUpdateByte_ne_byte hs hb hc hbc)

lemma crc_eq_reference_aux (l : List Nat) (hl : ∀ x ∈ l, x < 128) (a : Nat) :
    l.foldl crcUpdateByte a = l.foldl (fun crc b => crcStep^[8] (crc ^^^ b)) a := by
  induction l generalizing a with
  | nil => rfl
  | cons x xs ih =>
      simp only [List.foldl_cons]
      rw [show crcUpdateByte a x = crcStep^[8] (a ^^^ x) by
        unfold crcUpdateByte byteToU16
        rw [if_pos (hl x (by simp))]]
      exact ih (fun y hy => hl y (List.mem_cons_of_mem x hy)) _

/-! Lemmas about the numeric parsers and the wire renderers. -/

lemma digitsPad_length (w x : Nat) : (digitsPad w x).length = w := by
  induction w generalizing x with
  | zero => rfl
  | succ k ih => simp [digitsPad, ih]

lemma digitsPad_mem {w x b : Nat} (h : b ∈ digitsPad w x) : 48 ≤ b ∧ b ≤ 57 := by
  induction w generalizing x with
  | zero => simp [digitsPad] at h
  | succ k ih =>
      simp only [digitsPad, List.mem_cons] at h
      rcases h with h | h
      · have : x / 10 ^ k % 10 < 10 := Nat.mod_lt _ (by norm_num)
        omega
      · exact ih h

lemma parseDecimalGo_digitsPad (w : Nat) : ∀ (x acc : Nat) (r : List Nat),
    parseDecimalGo acc (digitsPad w x ++ r) = parseDecimalGo (acc * 10 ^ w + x % 10 ^ w) r := by
  induction w with
  | zero => intro x acc r; simp [digitsPad, Nat.mod_one]
  | succ k ih =>
      intro x acc r
      have hd : x / 10 ^ k % 10 < 10 := Nat.mod_lt _ (by norm_num)
      simp only [digitsPad, List.cons_append, parseDecimalGo, List.append_eq]
      rw [if_pos (by omega)]
      rw [ih (x % 10 ^ k) (acc * 10 + (48 + x / 10 ^ k % 10 - 48)) r]
      congr 1
      have hmm : x % 10 ^ k % 10 ^ k = x % 10 ^ k := Nat.mod_mod_of_dvd x dvd_rfl
      have hsplit : x % 10 ^ (k + 1) = x % 10 ^ k + 10 ^ k * (x / 10 ^ k % 10) := by
        rw [pow_succ]
        exact Nat.mod_mul
      have hc : 48 + x / 10 ^ k % 10 - 48 = x / 10 ^ k % 10 := by omega
      rw [hc, hmm, hsplit, pow_succ]
      ring

lemma parseDecimal_two_digit_runs {v : Nat} (h : v < 1000000000) :
    parseDecimal (digitsPad 6 (v / 1000) ++ digitsPad 3 (v % 1000)) = v := by
  unfold parseDecimal
  rw [parseDecimalGo_digitsPad 6 (v / 1000) 0 (digitsPad 3 (v % 1000))]
  rw [show digitsPad 3 (v % 1000) = digitsPad 3 (v % 1000) ++ [] by simp]
  rw [parseDecimalGo_digitsPad 3 (v % 1000) _ []]
  unfold parseDecimalGo
  have h6 : v / 1000 % 10 ^ 6 = v / 1000 := Nat.mod_eq_of_lt (by omega)
  have h3 : v % 1000 % 10 ^ 3 = v % 1000 := Nat.mod_eq_of_lt (by omega)
  rw [h6, h3]
  norm_num
  omega

lemma hexVal_hexDigit {d : Nat} (h : d < 16) : hexVal (hexDigit d) = some d := by
  rcases Nat.lt_or_ge d 10 with h10 | h10
  · have hx : hexDigit d = 48 + d := by
      unfold hexDigit
      rw [if_pos h10]
    rw [hx]
    unfold hexVal
    rw [if_pos (by omega)]
    congr 1
    omega
  · have hx : hexDigit d = 55 + d := by
      unfold hexDigit
      rw [if_neg (by omega)]
    rw [hx]
    unfold hexVal
    rw [if_neg (by omega), if_pos (by omega)]
    congr 1
    omega

lemma parseHex_hex4 {n : Nat} (h : n < 65536) : parseHex (hex4 n) = n := by
  unfold parseHex hex4
  have d1 : n / 4096 % 16 < 16 := Nat.mod_lt _ (by norm_num)
  have d2 : n / 256 % 16 < 16 := Nat.mod_lt _ (by norm_num)
  have d3 : n / 16 % 16 < 16 := Nat.mod_lt _ (by norm_num)
  have d4 : n % 16 < 16 := Nat.mod_lt _ (by norm_num)
  simp only [parseHexGo, hexVal_hexDigit d1, hexVal_hexDigit d2, hexVal_hexDigit d3,
    hexVal_hexDigit d4]
  omega

/-! Lemmas about character search. -/

lemma findChr_notin {c : Nat} {l : List Nat} (h : c ∉ l) : findChr c l = -1 := by
  induction l with
  | nil => rfl
  | cons b bs ih =>
      have hb : ¬ b = c := fun hbc => h (by simp [hbc])
      simp only [findChr, if_neg hb]
      rw [ih (fun hc => h (List.mem_cons_of_mem b hc))]
      rfl

lemma findChr_cons_self (c : Nat) (l : List Nat) : findChr c (c :: l) = 0 := by
  simp [findChr]

lemma findChr_nonneg {c : Nat} {l : List Nat} (h : findChr c l ≠ -1) : 0 ≤ findChr c l := by
  induction l with
  | nil => simp [findChr] at h
  | cons b bs ih =>
      by_cases hb : b = c
      · simp [findChr, hb]
      · simp only [findChr, if_neg hb] at h ⊢
        by_cases hr : findChr c bs = -1
        · simp [hr] at h
        · have := ih hr
          simp only [if_neg hr]
          omega

lemma findChr_append_notin {c : Nat} {l1 : List Nat} (l2 : List Nat) (h : c ∉ l1) :
    findChr c (l1 ++ l2) =
      if findChr c l2 = -1 then -1 else (l1.length : Int) + findChr c l2 := by
  induction l1 with
  | nil =>
      by_cases hr : findChr c l2 = -1
      · simp [hr]
      · simp [hr]
  | cons b bs ih =>
      have hb : ¬ b = c := fun hbc => h (by simp [hbc])
      simp only [List.cons_append, findChr, if_neg hb, List.append_eq]
      rw [ih (fun hc => h (List.mem_cons_of_mem b hc))]
      by_cases hr : findChr c l2 = -1
      · simp [hr]
      · have h0 := findChr_nonneg hr
        simp only [if_neg hr]
        rw [if_neg (by omega)]
        simp only [List.length_cons]
        push_cast
        ring

lemma idxOf_found {buf : List Nat} {c : Nat} {i : Int} (hi : 0 ≤ i) {l1 l2 : List Nat}
    (hd : buf.drop i.toNat = l1 ++ c :: l2) (hn : c ∉ l1) :
    idxOf buf c i = i + l1.length := by
  unfold idxOf
  rw [hd, findChr_append_notin _ hn, findChr_cons_self]
  rw [if_neg (by omega)]
  rw [if_neg (by omega)]
  rw [Int.toNat_of_nonneg hi]
  omega

lemma idxOf_none {buf : List Nat} {c : Nat} {i : Int} (h : c ∉ buf.drop i.toNat) :
    idxOf buf c i = -1 := by
  unfold idxOf
  rw [findChr_notin h]
  rfl

/-! Lemmas about the power-failure-log loop, for claim C4. -/

lemma powerLogGo_length (buf : List Nat) (n : Nat) : ∀ i, (powerLogGo buf n i).length = n := by
  induction n with
  | zero => intro i; rfl
  | succ k ih => intro i; simp [powerLogGo, ih]

lemma foldl_set_length (ps : List (Nat × PowerFailureLogStruct)) :
    ∀ arr : List PowerFailureLogStruct,
      (ps.foldl (fun a p => a.set p.1 p.2) arr).length = arr.length := by
  induction ps with
  | nil => intro arr; rfl
  | cons p ps ih => intro arr; simp [ih]

lemma applyLogWrites_length (arr ws : List PowerFailureLogStruct) :
    (applyLogWrites arr ws).length = arr.length := by
  unfold applyLogWrites
  exact foldl_set_length _ arr

/-! Lemmas about the byte accumulator (`ReceiveTelegram`).  On every
modelled path the write position equals the buffer content length, so
each write appends. -/

lemma writeAt_append (buf : List Nat) (b : Nat) : writeAt buf buf.length b = buf ++ [b] := by
  unfold writeAt
  rw [if_neg (by omega)]
  simp

lemma getD_low_ne_33 {buf : List Nat} (h33 : 33 ∉ buf) (pre : List Nat) {i : Nat}
    (hi : i < buf.length) : (buf ++ pre).getD i 0 ≠ 33 := by
  rw [getD_append_left hi]
  intro hc
  exact h33 (hc ▸ getD_mem hi 0)

lemma receiveLoop_step_no_fire {buf : List Nat} {idx : Nat} (hidx : idx = buf.length)
    {x : Nat} (h : (buf ++ [x]).getD (idx - 6) 0 ≠ 33) {s : List Nat} :
    receiveLoop (x :: s) buf idx = receiveLoop s (buf ++ [x]) (idx + 1) := by
  subst hidx
  simp only [receiveLoop]
  rw [writeAt_append, if_neg h]

lemma receiveLoop_step_fire {buf : List Nat} {idx : Nat} (hidx : idx = buf.length)
    {x : Nat} (h : (buf ++ [x]).getD (idx - 6) 0 = 33) {s : List Nat} :
    receiveLoop (x :: s) buf idx = (buf ++ [x], idx, true, s) := by
  subst hidx
  simp only [receiveLoop]
  rw [writeAt_append, if_pos h]

/-- While no `!` has entered the buffer and none arrives, the receive
loop appends bytes one by one without completing. -/
lemma receiveLoop_walk (xs : List Nat) : ∀ (ys buf : List Nat), 33 ∉ buf → 33 ∉ xs →
    0 < buf.length →
    receiveLoop (xs ++ ys) buf buf.length = receiveLoop ys (buf ++ xs) (buf ++ xs).length := by
  induction xs with
  | nil => intro ys buf _ _ _; simp
  | cons x xs ih =>
      intro ys buf hb hx hlen
      have hxne : x ≠ 33 := fun hc => hx (by simp [hc])
      have hguard : (buf ++ [x]).getD (buf.length - 6) 0 ≠ 33 :=
        getD_low_ne_33 hb [x] (by omega)
      rw [List.cons_append, receiveLoop_step_no_fire rfl hguard]
      have hb' : 33 ∉ buf ++ [x] := by
        intro hc
        rcases List.mem_append.mp hc with hc | hc
        · exact hb hc
        · simp at hc
          exact hxne hc.symm
      have hlen' : 0 < (buf ++ [x]).length := by simp
      have := ih ys (buf ++ [x]) hb' (fun hc => hx (List.mem_cons_of_mem x hc)) hlen'
      rw [show buf.length + 1 = (buf ++ [x]).length by simp, this,
        List.append_assoc]
      simp

/-- Arrival of the terminator line `!abcd\r\n` on a `!`-free buffer:
the completion check stays silent while `!` and the four trailer bytes
and the `\r` are written (it examines older bytes only), and fires
exactly when the final `\n` is written, at which point the byte 6
positions behind the write position is the `!`. -/
lemma receiveLoop_finish (buf : List Nat) (h33 : 33 ∉ buf) (hlen : 0 < buf.length)
    (t1 t2 t3 t4 : Nat) (rest : List Nat) :
    receiveLoop (33 :: t1 :: t2 :: t3 :: t4 :: 13 :: 10 :: rest) buf buf.length =
      (buf ++ [33, t1, t2, t3, t4, 13, 10], buf.length + 6, true, rest) := by
  rw [receiveLoop_step_no_fire rfl (getD_low_ne_33 h33 [33] (by omega))]
  rw [receiveLoop_step_no_fire (show buf.length + 1 = (buf ++ [33]).length by simp)
    (by
      simp only [List.append_assoc, List.singleton_append]
      refine getD_low_ne_33 h33 _ ?_
      simp
      omega)]
  rw [receiveLoop_step_no_fire
    (show buf.length + 1 + 1 = ((buf ++ [33]) ++ [t1]).length by simp)
    (by
      simp only [List.append_assoc, List.singleton_append]
      refine getD_low_ne_33 h33 _ ?_
      simp
      omega)]
  rw [receiveLoop_step_no_fire
    (show buf.length + 1 + 1 + 1 = (((buf ++ [33]) ++ [t1]) ++ [t2]).length by simp)
    (by
      simp only [List.append_assoc, List.singleton_append]
      refine getD_low_ne_33 h33 _ ?_
      simp
      omega)]
  rw [receiveLoop_step_no_fire
    (show buf.length + 1 + 1 + 1 + 1 = ((((buf ++ [33]) ++ [t1]) ++ [t2]) ++ [t3]).length by simp)
    (by
      simp only [List.append_assoc, List.singleton_append]
      refine getD_low_ne_33 h33 _ ?_
      simp
      omega)]
  rw [receiveLoop_step_no_fire
    (show buf.length + 1 + 1 + 1 + 1 + 1
        = (((((buf ++ [33]) ++ [t1]) ++ [t2]) ++ [t3]) ++ [t4]).length by simp)
    (by
      simp only [List.append_assoc, List.singleton_append]
      refine getD_low_ne_33 h33 _ ?_
      simp
      omega)]
  rw [receiveLoop_step_fire
    (show buf.length + 1 + 1 + 1 + 1 + 1 + 1
        = ((((((buf ++ [33]) ++ [t1]) ++ [t2]) ++ [t3]) ++ [t4]) ++ [13]).length by simp)
    (by
      simp only [List.append_assoc, List.cons_append, List.singleton_append]
      rw [show buf.length + 1 + 1 + 1 + 1 + 1 + 1 - 6 = buf.length by omega]
      exact getD_append_right_head buf 33 _ 0)]
  simp [List.append_assoc]

/-- Completion of a whole well-formed telegram stream starting from a
fresh (post-`ProcessTelegram`) state: the `/` restarts the buffer, the
body and trailer are accumulated, and reception completes exactly at
the trailer's final line-ending byte, leaving `rest` unconsumed. -/
lemma receiveTelegram_complete (body : List Nat) (t1 t2 t3 t4 : Nat) (rest : List Nat)
    (hb : 33 ∉ body) (st : MeterState) (hbuf : st.buffer = []) (hrd : st.dataReady = false) :
    receiveTelegram st (47 :: (body ++ 33 :: t1 :: t2 :: t3 :: t4 :: 13 :: 10 :: rest)) =
      (⟨47 :: (body ++ [33, t1, t2, t3, t4, 13, 10]), body.length + 7, true, st.data⟩, rest) := by
  simp only [receiveTelegram]
  rw [if_neg (by omega)]
  rw [hbuf, hrd]
  simp only [Bool.false_eq_true, if_false]
  have hw : writeAt ([] : List Nat) 0 47 = [47] := rfl
  rw [hw]
  rw [show (1 : Nat) = ([47] : List Nat).length from rfl]
  rw [receiveLoop_walk body _ [47] (by decide) hb (by decide)]
  have h47 : 33 ∉ ([47] : List Nat) ++ body := by
    intro hc
    rcases List.mem_append.mp hc with hc | hc
    · simp at hc
    · exact hb hc
  rw [receiveLoop_finish ([47] ++ body) h47 (by simp) t1 t2 t3 t4 rest]
  simp [List.append_assoc]

/-- C3: during reception the accumulator completes exactly when the
byte 6 positions behind the current write position equals `!`: for a
telegram stream `/` + body + `!` + 4 trailer bytes + `\r\n` (no `!` in
the body), reception runs to the `Ready` state precisely at the arrival
of the final line-ending byte — the bytes after it (`rest`) are left
unconsumed — with the completed buffer ending in `!` + trailer +
`\r\n`, i.e. the completion check fires at the telegram's trailer. -/
theorem claim_C3_completion_at_trailer (body : List Nat) (t1 t2 t3 t4 : Nat)
    (rest : List Nat) (st : MeterState) (hb : 33 ∉ body) (hbuf : st.buffer = [])
    (hrd : st.dataReady = false) :
    receiveTelegram st (47 :: (body ++ 33 :: t1 :: t2 :: t3 :: t4 :: 13 :: 10 :: rest)) =
      (⟨47 :: (body ++ [33, t1, t2, t3, t4, 13, 10]), body.length + 7, true, st.data⟩, rest) :=
  receiveTelegram_complete body t1 t2 t3 t4 rest hb st hbuf hrd

/-- C3 witness: the completion theorem at the concrete stream
`/h!ABCD\r\n` followed by one extra byte, which stays unconsumed. -/
theorem claim_C3_witness :
    33 ∉ ([104] : List Nat) ∧
      receiveTelegram freshMeter [47, 104, 33, 65, 66, 67, 68, 13, 10, 55] =
        (⟨[47, 104, 33, 65, 66, 67, 68, 13, 10], 8, true, defaultP1Data⟩, [55]) :=
  ⟨by decide,
    claim_C3_completion_at_trailer [104] 65 66 67 68 [55] freshMeter (by decide) rfl rfl⟩

/-- C6 counterexample: on the stream `/AB/CD!1234\r\n` the `/` that
arrives mid-capture does NOT discard the in-flight buffer: reception
completes with the full 13-byte buffer `/AB/CD!1234\r\n` — including
the bytes `AB` captured before the second `/` — and `DataReady` set, so
a Reading would be produced from the supposedly preempted capture,
refuting "the in-flight buffer is discarded and reset so that no
Reading is ever produced from the preempted capture". -/
theorem claim_C6_counterexample :
    (receiveTelegram freshMeter [47, 65, 66, 47, 67, 68, 33, 49, 50, 51, 52, 13, 10]).1.buffer
        = [47, 65, 66, 47, 67, 68, 33, 49, 50, 51, 52, 13, 10] ∧
      (receiveTelegram freshMeter [47, 65, 66, 47, 67, 68, 33, 49, 50, 51, 52, 13, 10]).1.dataReady
        = true := by decide

/-- C6 amended: a `/` byte arriving while the accumulator is in the
Receiving state is stored as an ordinary data byte: the in-flight
buffer is kept, the capture continues from the original start marker,
and the eventual Reading covers the whole capture with the interior `/`
at its recorded position.  (Only a `/` read while no capture is in
progress — the Idle or Ready state — restarts the buffer at position
0, because the blocking inner loop never re-examines bytes for `/`.) -/
theorem claim_C6_slash_retained (pre post : List Nat) (t1 t2 t3 t4 : Nat)
    (rest : List Nat) (st : MeterState) (hpre : 33 ∉ pre) (hpost : 33 ∉ post)
    (hbuf : st.buffer = []) (hrd : st.dataReady = false) :
    receiveTelegram st
        (47 :: ((pre ++ 47 :: post) ++ 33 :: t1 :: t2 :: t3 :: t4 :: 13 :: 10 :: rest)) =
      (⟨47 :: ((pre ++ 47 :: post) ++ [33, t1, t2, t3, t4, 13, 10]),
        (pre ++ 47 :: post).length + 7, true, st.data⟩, rest) :=
  receiveTelegram_complete (pre ++ 47 :: post) t1 t2 t3 t4 rest
    (by
      intro hc
      rcases List.mem_append.mp hc with hc | hc
      · exact hpre hc
      · rcases List.mem_cons.mp hc with hc | hc
        · simp at hc
        · exact hpost hc)
    st hbuf hrd

/-- C6 witness: the amended theorem at the concrete stream
`/A/B!0123\r\n`: the whole 11-byte capture, interior `/` included, is
the completed buffer. -/
theorem claim_C6_witness :
    33 ∉ ([65] : List Nat) ∧ 33 ∉ ([66] : List Nat) ∧
      receiveTelegram freshMeter [47, 65, 47, 66, 33, 48, 49, 50, 51, 13, 10] =
        (⟨[47, 65, 47, 66, 33, 48, 49, 50, 51, 13, 10], 10, true, defaultP1Data⟩, []) :=
  ⟨by decide, by decide,
    claim_C6_slash_retained [65] [66] 48 49 50 51 [] freshMeter (by decide) (by decide) rfl rfl⟩

/-! Lemmas for the CRC check performed at the end of
`ProcessTelegram`, and claims C1 and C8. -/

lemma toU16_coe {n : Nat} (h : n < 65536) : toU16 (n : Int) = n := by
  unfold toU16
  rw [Int.emod_eq_of_lt (by omega) (by omega)]
  simp

lemma processTelegram_crc_fields (st : MeterState) :
    (processTelegram st).1.CRC
        = parseHex ((st.buffer.drop (toU16 (idxOf st.buffer 33 0) + 1)).take 4) ∧
      (processTelegram st).1.ValidCRC
        = (parseHex ((st.buffer.drop (toU16 (idxOf st.buffer 33 0) + 1)).take 4)
            == calcCRC16 st.buffer ((toU16 (idxOf st.buffer 33 0) + 1) % 65536)) :=
  ⟨rfl, rfl⟩

/-- The CRC check of `ProcessTelegram` on a buffer of completed shape
body + `!` + 4 trailer bytes + `\r\n` with no `!` inside the body: the
stored `CRC` is the parsed trailer and `ValidCRC` compares it with the
CRC recomputed over the bytes from the buffer start through the `!`. -/
lemma processTelegram_validCRC (st : MeterState) (body tr4 : List Nat)
    (hne : 33 ∉ body) (hlen4 : tr4.length = 4) (hsize : body.length < 65535)
    (hst : st.buffer = body ++ 33 :: tr4 ++ [13, 10]) :
    (processTelegram st).1.ValidCRC
        = (parseHex tr4 == CRC16_IBM_REVERSED (body ++ [33])) ∧
      (processTelegram st).1.CRC = parseHex tr4 := by
  have hidx : idxOf st.buffer 33 0 = (body.length : Int) := by
    have hd : st.buffer.drop (0 : Int).toNat = body ++ 33 :: (tr4 ++ [13, 10]) := by
      rw [hst]
      simp
    have := idxOf_found (le_refl (0 : Int)) hd hne
    omega
  have hu : toU16 (idxOf st.buffer 33 0) + 1 = body.length + 1 := by
    rw [hidx, toU16_coe (by omega)]
  have hshape : st.buffer = (body ++ [33]) ++ (tr4 ++ [13, 10]) := by
    rw [hst]
    simp
  have hm : (st.buffer.drop (body.length + 1)).take 4 = tr4 := by
    rw [hshape, show body.length + 1 = (body ++ [33]).length by simp, List.drop_left]
    rw [take_append_le _ (by omega), List.take_of_length_le (by omega)]
  have hc : calcCRC16 st.buffer ((body.length + 1) % 65536) = CRC16_IBM_REVERSED (body ++ [33]) := by
    unfold calcCRC16
    rw [Nat.mod_eq_of_lt (by omega), hshape,
      show body.length + 1 = (body ++ [33]).length by simp, List.take_left]
  obtain ⟨h1, h2⟩ := processTelegram_crc_fields st
  rw [hu] at h1 h2
  rw [hm] at h1
  rw [hm, hc] at h2
  exact ⟨h2, h1⟩

/-- C1: for every completed telegram buffer — start marker first, no
`!` before the terminator, then the terminator `!`, a 4-hex-digit
trailer and `\r\n` — the Reading's `ValidCRC` is true exactly when the
CRC-16 recomputed over the bytes from the start marker through the
terminator inclusive equals the trailer parsed (case-insensitively, by
the base-16 conversion) as an unsigned 16-bit integer, and the
Reading's `CRC` field equals that literal trailer value. -/
theorem claim_C1_valid_crc (body : List Nat) (t1 t2 t3 t4 : Nat) (st : MeterState)
    (hne : 33 ∉ body) (hhead : body.getD 0 0 = 47) (hsize : body.length < 65535)
    (hx1 : (hexVal t1).isSome) (hx2 : (hexVal t2).isSome)
    (hx3 : (hexVal t3).isSome) (hx4 : (hexVal t4).isSome)
    (hst : st.buffer = body ++ 33 :: [t1, t2, t3, t4] ++ [13, 10]) :
    ((processTelegram st).1.ValidCRC = true ↔
        CRC16_IBM_REVERSED (body ++ [33]) = parseHex [t1, t2, t3, t4]) ∧
      (processTelegram st).1.CRC = parseHex [t1, t2, t3, t4] := by
  obtain ⟨h1, h2⟩ := processTelegram_validCRC st body [t1, t2, t3, t4] hne rfl hsize hst
  refine ⟨?_, h2⟩
  rw [h1, beq_iff_eq]
  exact eq_comm

/-- The state holding the completed telegram `/h\r\n!DD9E\r\n` of the
C1 witness; DD9E is the CRC of `/h\r\n!`. -/
def stC1 : MeterState := {freshMeter with buffer := [47, 104, 13, 10, 33, 68, 68, 57, 69, 13, 10], bufferIndex := 10}

/-- C1 witness: the theorem at the concrete completed telegram
`/h\r\n!DD9E\r\n`, whose trailer DD9E is the CRC of `/h\r\n!`. -/
theorem claim_C1_witness :
    33 ∉ ([47, 104, 13, 10] : List Nat) ∧
      (((processTelegram stC1).1.ValidCRC = true ↔
          CRC16_IBM_REVERSED ([47, 104, 13, 10] ++ [33]) = parseHex [68, 68, 57, 69]) ∧
        (processTelegram stC1).1.CRC = parseHex [68, 68, 57, 69]) :=
  ⟨by decide,
    claim_C1_valid_crc [47, 104, 13, 10] 68 68 57 69 stC1 (by decide) (by decide) (by decide)
      (by decide) (by decide) (by decide) (by decide) rfl⟩

/-- The state holding the original telegram `/Q041CC!A9B8\r\n` of the
C8 counterexample. -/
def stC8orig : MeterState := {freshMeter with buffer := [47, 81, 48, 52, 49, 67, 67, 33, 65, 57, 66, 56, 13, 10], bufferIndex := 13}

/-- The same telegram with the single byte at position 2 changed from
`0` to `!`, trailer untouched. -/
def stC8changed : MeterState := {freshMeter with buffer := [47, 81, 33, 52, 49, 67, 67, 33, 65, 57, 66, 56, 13, 10], bufferIndex := 13}

set_option maxRecDepth 1000000 in
/-- C8 counterexample: a single-byte change strictly between the start
marker and the terminator, with the trailer left unchanged, that keeps
`ValidCRC == true`.  The original telegram is `/Q0` + `41CC` + `!` +
`A9B8` + `\r\n`, where 41CC is the CRC of `/Q!` and A9B8 the CRC of
`/Q041CC!`; it decodes with `ValidCRC = true`.  Changing the byte at
position 2 (`0`, strictly between `/` and the terminator) to `!` moves
the first-`!` search to position 2, so the code recomputes the CRC over
`/Q!` (= 0x41CC) and parses `41CC` — old body bytes — as the trailer:
`ValidCRC` is again true, refuting the claim. -/
theorem claim_C8_counterexample :
    (processTelegram stC8orig).1.ValidCRC = true ∧
      (processTelegram stC8changed).1.ValidCRC = true := by decide

/-- C8 amended: for a telegram whose trailer is the correctly computed
checksum of its body, changing exactly one byte at any position from
the start marker up to but excluding the terminator, to a byte value
other than `!`, while leaving the trailer unchanged, makes decoding
yield `ValidCRC == false`.  (The two excluded cases move the first-`!`
search: changing a byte to `!` shifts both the recomputation window and
the parsed trailer, and a crafted telegram then still validates — see
the counterexample — while changing the terminator byte itself makes
the search fail altogether.) -/
theorem claim_C8_single_flip (pre post : List Nat) (b c : Nat) (st st' : MeterState)
    (hpre : ∀ x ∈ pre, x < 256) (hpost : ∀ x ∈ post, x < 256)
    (hb : b < 256) (hc : c < 256) (hbc : b ≠ c) (hcne : c ≠ 33)
    (hbne : b ≠ 33) (hpre33 : 33 ∉ pre) (hpost33 : 33 ∉ post)
    (hsize : pre.length + post.length + 2 < 65535)
    (hst : st.buffer = (pre ++ b :: post) ++
      33 :: hex4 (CRC16_IBM_REVERSED ((pre ++ b :: post) ++ [33])) ++ [13, 10])
    (hst' : st'.buffer = (pre ++ c :: post) ++
      33 :: hex4 (CRC16_IBM_REVERSED ((pre ++ b :: post) ++ [33])) ++ [13, 10]) :
    (processTelegram st).1.ValidCRC = true ∧
      (processTelegram st').1.ValidCRC = false := by
  have hmem : ∀ x ∈ pre ++ b :: post, x < 256 := by
    intro x hx
    rcases List.mem_append.mp hx with hx | hx
    · exact hpre x hx
    · rcases List.mem_cons.mp hx with hx | hx
      · omega
      · exact hpost x hx
  have hmem33 : ∀ x ∈ (pre ++ b :: post) ++ [33], x < 256 := by
    intro x hx
    rcases List.mem_append.mp hx with hx | hx
    · exact hmem x hx
    · simp at hx
      omega
  have hW : CRC16_IBM_REVERSED ((pre ++ b :: post) ++ [33]) < 65536 := CRC16_lt _ hmem33
  have hb33 : 33 ∉ pre ++ b :: post := by
    intro hx
    rcases List.mem_append.mp hx with hx | hx
    · exact hpre33 hx
    · rcases List.mem_cons.mp hx with hx | hx
      · exact hbne hx.symm
      · exact hpost33 hx
  have hc33 : 33 ∉ pre ++ c :: post := by
    intro hx
    rcases List.mem_append.mp hx with hx | hx
    · exact hpre33 hx
    · rcases List.mem_cons.mp hx with hx | hx
      · exact hcne hx.symm
      · exact hpost33 hx
  have hlen4 : (hex4 (CRC16_IBM_REVERSED ((pre ++ b :: post) ++ [33]))).length = 4 := rfl
  have hlen1 : (pre ++ b :: post).length < 65535 := by
    simp only [List.length_append, List.length_cons]
    omega
  have hlen2 : (pre ++ c :: post).length < 65535 := by
    simp only [List.length_append, List.length_cons]
    omega
  obtain ⟨hv1, _⟩ := processTelegram_validCRC st (pre ++ b :: post) _ hb33 hlen4 hlen1 hst
  obtain ⟨hv2, _⟩ := processTelegram_validCRC st' (pre ++ c :: post) _ hc33 hlen4 hlen2 hst'
  constructor
  · rw [hv1, parseHex_hex4 hW]
    exact beq_self_eq_true _
  · rw [hv2, parseHex_hex4 hW]
    refine beq_eq_false_iff_ne.mpr ?_
    have hdiff : CRC16_IBM_REVERSED (pre ++ b :: (post ++ [33]))
        ≠ CRC16_IBM_REVERSED (pre ++ c :: (post ++ [33])) := by
      refine crc_single_change hpre ?_ hb hc hbc
      intro x hx
      rcases List.mem_append.mp hx with hx | hx
      · exact hpost x hx
      · simp at hx
        omega
    intro heq
    apply hdiff
    rw [show pre ++ b :: (post ++ [33]) = (pre ++ b :: post) ++ [33] by simp,
      show pre ++ c :: (post ++ [33]) = (pre ++ c :: post) ++ [33] by simp]
    exact heq

/-- The state holding the valid two-byte-body telegram `/X` + trailer
of the C8 witness. -/
def stC8w1 : MeterState := {freshMeter with buffer := [47, 88] ++ 33 :: hex4 (CRC16_IBM_REVERSED [47, 88, 33]) ++ [13, 10], bufferIndex := 9}

/-- The same telegram with `X` changed to `Y`, trailer kept. -/
def stC8w2 : MeterState := {freshMeter with buffer := [47, 89] ++ 33 :: hex4 (CRC16_IBM_REVERSED [47, 88, 33]) ++ [13, 10], bufferIndex := 9}

/-- C8 witness: the amended theorem at the concrete telegram body `/X`
with the byte `X` (position 1, strictly between start marker and
terminator) changed to `Y`, trailer kept. -/
theorem claim_C8_witness :
    (88 : Nat) ≠ 89 ∧
      (processTelegram stC8w1).1.ValidCRC = true ∧
      (processTelegram stC8w2).1.ValidCRC = false :=
  ⟨by decide,
    (claim_C8_single_flip [47] [] 88 89 stC8w1 stC8w2 (by decide) (by decide) (by decide)
      (by decide) (by decide) (by decide) (by decide) (by decide) (by decide) (by decide)
      rfl rfl).1,
    (claim_C8_single_flip [47] [] 88 89 stC8w1 stC8w2 (by decide) (by decide) (by decide)
      (by decide) (by decide) (by decide) (by decide) (by decide) (by decide) (by decide)
      rfl rfl).2⟩

/-! Claim C9: the fixed-point round trip. -/

/-- Modelled from the spec: a full energy data line
`1-0:1.8.1(` + rendered fixed-point value + `*kWh)\r\n` whose value
field is the wire rendering of the minor-unit integer `v`. -/
def mkEnergyLine (v : Nat) : List Nat :=
  OBIS_TARIFF1_DELIVERED ++ [40] ++ renderFixed63 v ++ [42, 107, 87, 104, 41, 13, 10]

lemma mkEnergyLine_split (v : Nat) :
    mkEnergyLine v = (OBIS_TARIFF1_DELIVERED ++ [40]) ++
      (digitsPad 6 (v / 1000) ++ 46 :: (digitsPad 3 (v % 1000) ++ [42, 107, 87, 104, 41, 13, 10])) := by
  simp [mkEnergyLine, renderFixed63]

lemma mkEnergyLine_drop10 (v : Nat) :
    (mkEnergyLine v).drop 10 =
      digitsPad 6 (v / 1000) ++ 46 :: (digitsPad 3 (v % 1000) ++ [42, 107, 87, 104, 41, 13, 10]) := by
  rw [mkEnergyLine_split, List.drop_left' (by decide)]

lemma mkEnergyLine_drop17 (v : Nat) :
    (mkEnergyLine v).drop 17 = digitsPad 3 (v % 1000) ++ [42, 107, 87, 104, 41, 13, 10] := by
  rw [show (17 : Nat) = 10 + 7 by norm_num, ← List.drop_drop, mkEnergyLine_drop10]
  rw [show digitsPad 6 (v / 1000) ++ 46 :: (digitsPad 3 (v % 1000) ++ [42, 107, 87, 104, 41, 13, 10])
      = (digitsPad 6 (v / 1000) ++ [46]) ++ (digitsPad 3 (v % 1000) ++ [42, 107, 87, 104, 41, 13, 10]) by simp]
  rw [List.drop_left' (by simp [digitsPad_length])]

lemma notMem_digitsPad {c w x : Nat} (hc : c < 48 ∨ 57 < c) : c ∉ digitsPad w x := by
  intro hx
  have := digitsPad_mem hx
  omega

/-- The fixed-point decode of the tariff-1 branch recovers the rendered
minor-unit value. -/
lemma fixedVal_mkEnergyLine {v : Nat} (hv : v < 1000000000) :
    fixedVal (mkEnergyLine v) 0 6 3 = v := by
  have hi40 : idxOf (mkEnergyLine v) 40 0 = 9 := by
    have hd : (mkEnergyLine v).drop (0 : Int).toNat = OBIS_TARIFF1_DELIVERED ++
        40 :: (renderFixed63 v ++ [42, 107, 87, 104, 41, 13, 10]) := by
      simp [mkEnergyLine]
    have := idxOf_found (le_refl (0 : Int)) hd (by decide)
    simpa using this
  have hi46 : idxOf (mkEnergyLine v) 46 (0 + 10) = 16 := by
    have hd : (mkEnergyLine v).drop (0 + 10 : Int).toNat = digitsPad 6 (v / 1000) ++
        46 :: (digitsPad 3 (v % 1000) ++ [42, 107, 87, 104, 41, 13, 10]) := by
      rw [show ((0 + 10 : Int)).toNat = 10 by decide]
      exact mkEnergyLine_drop10 v
    have := idxOf_found (by norm_num) hd (notMem_digitsPad (by norm_num))
    rw [digitsPad_length] at this
    rw [this]
    norm_num
  have hint : ((mkEnergyLine v).drop 10).take 6 = digitsPad 6 (v / 1000) := by
    rw [mkEnergyLine_drop10, take_append_le _ (by rw [digitsPad_length]),
      List.take_of_length_le (by rw [digitsPad_length])]
  have hfrac : ((mkEnergyLine v).drop 17).take 3 = digitsPad 3 (v % 1000) := by
    rw [mkEnergyLine_drop17, take_append_le _ (by rw [digitsPad_length]),
      List.take_of_length_le (by rw [digitsPad_length])]
  unfold fixedVal
  rw [hi40, hi46]
  rw [show ((9 : Int) + 1).toNat = 10 by decide, show ((16 : Int) + 1).toNat = 17 by decide]
  simp only [hint, hfrac, digitsPad_length, Nat.sub_self, List.replicate_zero,
    List.nil_append, List.append_nil]
  exact parseDecimal_two_digit_runs hv

/-- C9: for every minor-unit integer `v` representable in the energy
wire width (6 integer digits + 3 fraction digits, i.e. `v < 10^9`),
rendering `v` into the wire sub-format (digits, decimal point, digits),
placing it in a `1-0:1.8.1(...)` line and decoding that line with the
decoder's dispatch reproduces the original minor-unit integer exactly
in the delivered-tariff-1 field. -/
theorem claim_C9_roundtrip (v : Nat) (hv : v < 1000000000) (e : Int) (d : P1Data) :
    (processDataLine (mkEnergyLine v) 0 e d).DeliveredTariff1 = v := by
  have g1 : startsWith (mkEnergyLine v) OBIS_VERSION (toU16 0) = false := by
    unfold startsWith mkEnergyLine OBIS_VERSION OBIS_TARIFF1_DELIVERED toU16
    simp [List.isPrefixOf]
  have g2 : startsWith (mkEnergyLine v) OBIS_DATETIME (toU16 0) = false := by
    unfold startsWith mkEnergyLine OBIS_DATETIME OBIS_TARIFF1_DELIVERED toU16
    simp [List.isPrefixOf]
  have g3 : startsWith (mkEnergyLine v) OBIS_EQUIPMENTID (toU16 0) = false := by
    unfold startsWith mkEnergyLine OBIS_EQUIPMENTID OBIS_TARIFF1_DELIVERED toU16
    simp [List.isPrefixOf]
  have g4 : startsWith (mkEnergyLine v) OBIS_TARIFF1_DELIVERED (toU16 0) = true := by
    unfold startsWith toU16
    rw [List.isPrefixOf_iff_prefix]
    rw [show ((0 : Int) % 65536).toNat = 0 by decide, List.drop_zero]
    exact ⟨[40] ++ renderFixed63 v ++ [42, 107, 87, 104, 41, 13, 10], by simp [mkEnergyLine]⟩
  simp only [processDataLine, g1, g2, g3, g4, Bool.false_eq_true, if_false, if_true]
  have hval : fixedVal (mkEnergyLine v) 0 6 3 = v := fixedVal_mkEnergyLine hv
  simp only [hval]
  exact Nat.mod_eq_of_lt (by omega)

/-- C9 witness: the round trip at the concrete value 987654321
(`987654.321` on the wire). -/
theorem claim_C9_witness :
    (987654321 : Nat) < 1000000000 ∧
      (processDataLine (mkEnergyLine 987654321) 0 26 defaultP1Data).DeliveredTariff1
        = 987654321 :=
  ⟨by decide, claim_C9_roundtrip 987654321 (by decide) 26 defaultP1Data⟩

/-! Claim C7: machinery to relate the line loop of `ProcessTelegram`
to a fold over a list of well-formed lines. -/

/-- A well-formed telegram line for the line loop: a nonempty body with
no line feed, followed by the terminating line feed.  (Real lines end
`\r\n`; only the `\n` structure matters to the loop.) -/
def lineOk (l : List Nat) : Prop :=
  ∃ front : List Nat, l = front ++ [10] ∧ 10 ∉ front ∧ front ≠ []

lemma lineOk_ne_nil {l : List Nat} (h : lineOk l) : l ≠ [] := by
  obtain ⟨front, rfl, -, -⟩ := h
  simp

/-- Specification-side fold over the successive lines: `p` is the
absolute index of the `\n` ending the previous line, so the next line
occupies indices `p + 1` through `p + ℓ.length`. -/
def foldLines (buf : List Nat) : Nat → List (List Nat) → P1Data → P1Data
  | _, [], d => d
  | p, ℓ :: ls, d =>
      foldLines buf (p + ℓ.length) ls
        (processDataLine buf ((p : Nat) + 1 : Nat) ((p + ℓ.length : Nat) : Int) d)

lemma length_le_flatten_length (ls : List (List Nat)) (h : ∀ ℓ ∈ ls, ℓ ≠ []) :
    ls.length ≤ ls.flatten.length := by
  induction ls with
  | nil => simp
  | cons ℓ ls ih =>
      simp only [List.flatten_cons, List.length_cons, List.length_append]
      have h1 : ℓ ≠ [] := h ℓ (by simp)
      have h2 : 1 ≤ ℓ.length := by
        cases ℓ with
        | nil => simp at h1
        | cons a as => simp
      have := ih (fun x hx => h x (List.mem_cons_of_mem ℓ hx))
      omega

/-- One iteration of the line loop: on a buffer whose bytes after
position `p` (a `\n`) consist of the well-formed line `ℓ` followed by
the remaining lines, the loop dispatches `ℓ` at `startOfLine = p + 1`
with `endOfLine = p + ℓ.length` and proceeds. -/
lemma linesLoop_step (buf : List Nat) (fuel p : Nat) (d : P1Data) (ℓ : List Nat)
    (tail : List Nat) (hok : lineOk ℓ) (hdrop : buf.drop (p + 1) = ℓ ++ tail) :
    linesLoop buf ((buf.length - 1 : Nat) : Int) (fuel + 1) (p : Int) d =
      linesLoop buf ((buf.length - 1 : Nat) : Int) fuel ((p + ℓ.length : Nat) : Int)
        (processDataLine buf ((p : Int) + 1) ((p + ℓ.length : Nat) : Int) d) := by
  obtain ⟨front, rfl, hf10, hfne⟩ := hok
  obtain ⟨f0, front', rfl⟩ : ∃ a as, front = a :: as := by
    cases front with
    | nil => simp at hfne
    | cons a as => exact ⟨a, as, rfl⟩
  have hlen : buf.length = p + 1 + ((f0 :: front' ++ [10]) ++ tail).length := by
    have h1 : (buf.drop (p + 1)).length = buf.length - (p + 1) := List.length_drop _ _
    rw [hdrop] at h1
    have h2 : p + 1 ≤ buf.length := by
      by_contra hc
      have : buf.drop (p + 1) = [] := List.drop_of_length_le (by omega)
      rw [hdrop] at this
      simp at this
    omega
  have hguard : (p : Int) < ((buf.length - 1 : Nat) : Int) ∧ (p : Int) ≠ -1 := by
    constructor
    · have : p + 2 ≤ buf.length - 1 := by
        simp only [List.length_append, List.length_cons] at hlen
        omega
      omega
    · omega
  have hE : idxOf buf 10 ((p : Int) + 1 + 1) = ((p + (f0 :: front' ++ [10]).length : Nat) : Int) := by
    have hd2 : buf.drop ((p : Int) + 1 + 1).toNat = (front' ++ [10]) ++ tail := by
      have ht : ((p : Int) + 1 + 1).toNat = (p + 1) + 1 := by omega
      rw [ht, ← List.drop_drop, hdrop]
      simp
    have hd3 : buf.drop ((p : Int) + 1 + 1).toNat = front' ++ 10 :: tail := by
      rw [hd2]
      simp
    have hn : (10 : Nat) ∉ front' := fun hc => hf10 (List.mem_cons_of_mem f0 hc)
    have := idxOf_found (by omega) hd3 hn
    rw [this]
    simp only [List.length_append, List.length_cons, List.length_nil]
    push_cast
    ring
  simp only [linesLoop]
  rw [if_pos hguard, hE]

/-- The line loop equals the fold over the lines when the buffer after
position `p` consists exactly of the remaining well-formed lines and
`bufferIndex` is the completed telegram's final write position (the
index of its last byte, the final `\n`). -/
lemma linesLoop_fold (buf : List Nat) (ls : List (List Nat)) :
    ∀ (fuel p : Nat) (d : P1Data), (∀ ℓ ∈ ls, lineOk ℓ) →
      buf.drop (p + 1) = ls.flatten → ls.length < fuel + 1 →
      linesLoop buf ((buf.length - 1 : Nat) : Int) (fuel + 1) (p : Int) d =
        foldLines buf p ls d := by
  induction ls with
  | nil =>
      intro fuel p d _ hdrop _
      have hlen : buf.length ≤ p + 1 := by
        have h1 : (buf.drop (p + 1)).length = buf.length - (p + 1) := List.length_drop _ _
        rw [hdrop] at h1
        simp at h1
        omega
      simp only [linesLoop, foldLines]
      rw [if_neg (by rintro ⟨h1, -⟩; omega)]
  | cons ℓ ls ih =>
      intro fuel p d hok hdrop hfuel
      have hstep := linesLoop_step buf fuel p d ℓ ls.flatten (hok ℓ (by simp))
        (by rw [hdrop]; simp)
      rw [hstep]
      cases fuel with
      | zero => simp at hfuel
      | succ fuel' =>
          have hdrop' : buf.drop (p + ℓ.length + 1) = ls.flatten := by
            rw [show p + ℓ.length + 1 = (p + 1) + ℓ.length by omega, ← List.drop_drop, hdrop]
            simp
          rw [ih fuel' (p + ℓ.length) _ (fun x hx => hok x (List.mem_cons_of_mem ℓ hx))
            hdrop' (by simp at hfuel; omega)]
          rfl

lemma foldLines_append (buf : List Nat) (as : List (List Nat)) :
    ∀ (bs : List (List Nat)) (p : Nat) (d : P1Data),
      foldLines buf p (as ++ bs) d = foldLines buf (p + as.flatten.length) bs (foldLines buf p as d) := by
  induction as with
  | nil => intro bs p d; simp [foldLines]
  | cons ℓ ls ih =>
      intro bs p d
      simp only [List.cons_append, foldLines, List.flatten_cons, List.length_append,
        List.append_eq]
      rw [ih]
      congr 1
      omega

/-- Prefix testing ignores anything appended beyond the tested
region when the region is at least as long as the pattern. -/
lemma isPrefixOf_append_left {pat l : List Nat} (r : List Nat) (h : pat.length ≤ l.length) :
    pat.isPrefixOf (l ++ r) = pat.isPrefixOf l := by
  induction pat generalizing l with
  | nil => simp [List.isPrefixOf]
  | cons a as ih =>
      cases l with
      | nil => simp at h
      | cons b bs =>
          simp only [List.cons_append, List.isPrefixOf, List.append_eq]
          rw [ih (by simpa using h)]

set_option maxHeartbeats 1600000 in
/-- Every dispatch branch except the `OBIS_TARIFF1_DELIVERED` one
leaves `DeliveredTariff1` untouched. -/
lemma processDataLine_preserve_DT1 (buf : List Nat) (s e : Int) (d : P1Data)
    (h : startsWith buf OBIS_TARIFF1_DELIVERED (toU16 s) = false) :
    (processDataLine buf s e d).DeliveredTariff1 = d.DeliveredTariff1 := by
  unfold processDataLine
  rw [h]
  simp only [Bool.false_eq_true, if_false, apply_ite P1Data.DeliveredTariff1, ite_self]

/-- Folding over lines none of which begins with the tariff-1 code
(and each long enough that the prefix test is decided inside the line)
preserves `DeliveredTariff1`. -/
lemma foldLines_preserve_DT1 (buf : List Nat) (ls : List (List Nat))
    (hsz : buf.length < 65536) :
    ∀ (p : Nat) (d : P1Data) (tail : List Nat), buf.drop (p + 1) = ls.flatten ++ tail →
      (∀ ℓ ∈ ls, 9 ≤ ℓ.length ∧ OBIS_TARIFF1_DELIVERED.isPrefixOf ℓ = false) →
      (foldLines buf p ls d).DeliveredTariff1 = d.DeliveredTariff1 := by
  induction ls with
  | nil => intro p d tail _ _; rfl
  | cons ℓ ls ih =>
      intro p d tail hdrop hno
      obtain ⟨hℓ9, hℓno⟩ := hno ℓ (by simp)
      have hdropℓ : buf.drop (p + 1) = ℓ ++ (ls.flatten ++ tail) := by
        rw [hdrop]
        simp
      have hplt : p + 1 < buf.length := by
        have h1 : (buf.drop (p + 1)).length = buf.length - (p + 1) := List.length_drop _ _
        rw [hdropℓ] at h1
        simp only [List.length_append] at h1
        omega
      have hsw : startsWith buf OBIS_TARIFF1_DELIVERED (toU16 ((p : Int) + 1)) = false := by
        unfold startsWith
        rw [show toU16 ((p : Int) + 1) = p + 1 by unfold toU16; omega]
        rw [hdropℓ, isPrefixOf_append_left _ (by simpa using hℓ9)]
        exact hℓno
      simp only [foldLines]
      rw [ih (p + ℓ.length) _ tail
        (by rw [show p + ℓ.length + 1 = (p + 1) + ℓ.length by omega, ← List.drop_drop, hdropℓ]; simp)
        (fun x hx => hno x (List.mem_cons_of_mem ℓ hx))]
      exact processDataLine_preserve_DT1 buf _ _ d hsw

/-- The concrete energy line of claim C7:
`1-0:1.8.1(001234.567*kWh)\r\n`. -/
def tariffLineC7 : List Nat :=
  [49, 45, 48, 58, 49, 46, 56, 46, 49, 40, 48, 48, 49, 50, 51, 52, 46,
   53, 54, 55, 42, 107, 87, 104, 41, 13, 10]

/-- Dispatching a line that starts with the 27 bytes of
`1-0:1.8.1(001234.567*kWh)\r\n`, anywhere inside a buffer, stores
1234567 in `DeliveredTariff1`. -/
lemma processDataLine_tariffC7 (buf : List Nat) (p1 : Nat) (e : Int) (d : P1Data)
    (R : List Nat) (hdrop : buf.drop p1 = tariffLineC7 ++ R) (hp : p1 < 65536) :
    (processDataLine buf (p1 : Int) e d).DeliveredTariff1 = 1234567 := by
  have htou : toU16 (p1 : Int) = p1 := by
    unfold toU16
    omega
  have hdc : buf.drop (toU16 (p1 : Int)) = tariffLineC7 ++ R := by
    rw [htou]
    exact hdrop
  have g1 : startsWith buf OBIS_VERSION (toU16 (p1 : Int)) = false := by
    unfold startsWith
    rw [hdc]
    simp [tariffLineC7, OBIS_VERSION, List.isPrefixOf]
  have g2 : startsWith buf OBIS_DATETIME (toU16 (p1 : Int)) = false := by
    unfold startsWith
    rw [hdc]
    simp [tariffLineC7, OBIS_DATETIME, List.isPrefixOf]
  have g3 : startsWith buf OBIS_EQUIPMENTID (toU16 (p1 : Int)) = false := by
    unfold startsWith
    rw [hdc]
    simp [tariffLineC7, OBIS_EQUIPMENTID, List.isPrefixOf]
  have g4 : startsWith buf OBIS_TARIFF1_DELIVERED (toU16 (p1 : Int)) = true := by
    unfold startsWith
    rw [hdc]
    simp [tariffLineC7, OBIS_TARIFF1_DELIVERED, List.isPrefixOf]
  have hi40 : idxOf buf 40 (p1 : Int) = (p1 : Int) + 9 := by
    have hd : buf.drop ((p1 : Int)).toNat = [49, 45, 48, 58, 49, 46, 56, 46, 49] ++
        40 :: ([48, 48, 49, 50, 51, 52, 46, 53, 54, 55, 42, 107, 87, 104, 41, 13, 10] ++ R) := by
      rw [show ((p1 : Int)).toNat = p1 by omega, hdrop]
      simp [tariffLineC7]
    have := idxOf_found (by omega) hd (by decide)
    rw [this]
    norm_num
  have hd10 : buf.drop (p1 + 10) =
      [48, 48, 49, 50, 51, 52] ++ 46 :: ([53, 54, 55, 42, 107, 87, 104, 41, 13, 10] ++ R) := by
    rw [← List.drop_drop, hdrop]
    simp [tariffLineC7]
  have hi46 : idxOf buf 46 ((p1 : Int) + 10) = (p1 : Int) + 16 := by
    have hd : buf.drop ((p1 : Int) + 10).toNat =
        [48, 48, 49, 50, 51, 52] ++ 46 :: ([53, 54, 55, 42, 107, 87, 104, 41, 13, 10] ++ R) := by
      rw [show ((p1 : Int) + 10).toNat = p1 + 10 by omega]
      exact hd10
    have := idxOf_found (by omega) hd (by decide)
    rw [this]
    norm_num
    omega
  have hd17 : buf.drop (p1 + 17) = [53, 54, 55, 42, 107, 87, 104, 41, 13, 10] ++ R := by
    rw [← List.drop_drop, hdrop]
    simp [tariffLineC7]
  have hval : fixedVal buf (p1 : Int) 6 3 = 1234567 := by
    unfold fixedVal
    rw [hi40, hi46]
    rw [show ((p1 : Int) + 9 + 1).toNat = p1 + 10 by omega,
      show ((p1 : Int) + 16 + 1).toNat = p1 + 17 by omega]
    rw [hd10, hd17]
    rw [take_append_le _ (by norm_num)]
    rw [show ([48, 48, 49, 50, 51, 52] : List Nat).take 6 = [48, 48, 49, 50, 51, 52] from rfl]
    rw [take_append_le _ (by norm_num)]
    rw [show ([53, 54, 55, 42, 107, 87, 104, 41, 13, 10] : List Nat).take 3 = [53, 54, 55] from rfl]
    decide
  simp only [processDataLine, g1, g2, g3, g4, Bool.false_eq_true, if_false, if_true, hval]

/-- C7: for every telegram containing the data line
`1-0:1.8.1(001234.567*kWh)` — a header with no line feed, any
well-formed lines before it, any well-formed lines after it none of
which also begins with the `1-0:1.8.1` code (a later duplicate would
overwrite the field), and the `!` trailer line — decoding sets the
delivered-tariff-1 field to 1234567, the digit run before the decimal
point concatenated with the digit run after it, in the minor unit. -/
theorem claim_C7_delivered_tariff1 (st : MeterState) (hdr : List Nat)
    (pre post : List (List Nat)) (tr : List Nat)
    (hhdr : 10 ∉ hdr)
    (hpre : ∀ ℓ ∈ pre, lineOk ℓ)
    (hpost : ∀ ℓ ∈ post, lineOk ℓ)
    (hpost9 : ∀ ℓ ∈ post, 9 ≤ ℓ.length ∧ OBIS_TARIFF1_DELIVERED.isPrefixOf ℓ = false)
    (htr : 10 ∉ tr)
    (hsz : st.buffer.length < 32768)
    (hbuf : st.buffer = 47 :: hdr ++ 13 :: 10 ::
      (pre ++ tariffLineC7 :: (post ++ [33 :: (tr ++ [13, 10])])).flatten)
    (hbi : st.bufferIndex = st.buffer.length - 1) :
    (processTelegram st).1.DeliveredTariff1 = 1234567 := by
  have hokT : lineOk tariffLineC7 :=
    ⟨[49, 45, 48, 58, 49, 46, 56, 46, 49, 40, 48, 48, 49, 50, 51, 52, 46,
      53, 54, 55, 42, 107, 87, 104, 41, 13], by decide, by decide, by decide⟩
  have hokE : lineOk (33 :: (tr ++ [13, 10])) := by
    refine ⟨33 :: (tr ++ [13]), by simp, ?_, by simp⟩
    intro hc
    simp at hc
    exact htr hc
  have hok : ∀ ℓ ∈ pre ++ tariffLineC7 :: (post ++ [33 :: (tr ++ [13, 10])]), lineOk ℓ := by
    intro ℓ hℓ
    rcases List.mem_append.mp hℓ with hℓ | hℓ
    · exact hpre ℓ hℓ
    · rcases List.mem_cons.mp hℓ with hℓ | hℓ
      · rw [hℓ]; exact hokT
      · rcases List.mem_append.mp hℓ with hℓ | hℓ
        · exact hpost ℓ hℓ
        · simp at hℓ
          rw [hℓ]; exact hokE
  have hE : idxOf st.buffer 10 0 = ((hdr.length + 2 : Nat) : Int) := by
    have hd0 : st.buffer.drop ((0 : Int)).toNat = (47 :: hdr ++ [13]) ++ 10 ::
        (pre ++ tariffLineC7 :: (post ++ [33 :: (tr ++ [13, 10])])).flatten := by
      rw [show ((0 : Int)).toNat = 0 from rfl, List.drop_zero, hbuf]
      simp
    have hn0 : (10 : Nat) ∉ 47 :: hdr ++ [13] := by
      intro hc
      simp at hc
      exact hhdr hc
    have := idxOf_found (le_refl (0 : Int)) hd0 hn0
    rw [this]
    simp only [List.length_cons, List.length_append, List.length_nil]
    push_cast
    ring
  have hdropLs : st.buffer.drop ((hdr.length + 2) + 1) =
      (pre ++ tariffLineC7 :: (post ++ [33 :: (tr ++ [13, 10])])).flatten := by
    rw [hbuf, show (47 : Nat) :: hdr ++ 13 :: 10 ::
        (pre ++ tariffLineC7 :: (post ++ [33 :: (tr ++ [13, 10])])).flatten
      = (47 :: hdr ++ [13, 10]) ++
        (pre ++ tariffLineC7 :: (post ++ [33 :: (tr ++ [13, 10])])).flatten by simp]
    rw [List.drop_left' (by simp [Nat.add_comm])]
  have hflatlen : (pre ++ tariffLineC7 :: (post ++ [33 :: (tr ++ [13, 10])])).flatten.length
      ≤ st.buffer.length := by
    have h1 := List.length_drop ((hdr.length + 2) + 1) st.buffer
    rw [hdropLs] at h1
    omega
  have hcount : (pre ++ tariffLineC7 :: (post ++ [33 :: (tr ++ [13, 10])])).length
      < (st.buffer.length + 1) + 1 := by
    have h2 := length_le_flatten_length _ (fun ℓ hℓ => lineOk_ne_nil (hok ℓ hℓ))
    omega
  have hdropT : st.buffer.drop ((hdr.length + 2 + pre.flatten.length) + 1) =
      tariffLineC7 ++ (post.flatten ++ 33 :: (tr ++ [13, 10])) := by
    rw [show (hdr.length + 2 + pre.flatten.length) + 1
        = ((hdr.length + 2) + 1) + pre.flatten.length by omega]
    rw [← List.drop_drop, hdropLs]
    rw [show (pre ++ tariffLineC7 :: (post ++ [33 :: (tr ++ [13, 10])])).flatten
      = pre.flatten ++ (tariffLineC7 ++ (post.flatten ++ 33 :: (tr ++ [13, 10]))) by simp]
    rw [List.drop_left]
  have hTlt : hdr.length + 2 + pre.flatten.length + 1 < st.buffer.length := by
    have h1 := List.length_drop ((hdr.length + 2 + pre.flatten.length) + 1) st.buffer
    rw [hdropT] at h1
    simp only [List.length_append, List.length_cons] at h1
    have h27 : tariffLineC7.length = 27 := rfl
    omega
  have hdropPost : st.buffer.drop ((hdr.length + 2 + pre.flatten.length + 27) + 1) =
      post.flatten ++ (33 :: (tr ++ [13, 10]) ++ []) := by
    rw [show (hdr.length + 2 + pre.flatten.length + 27) + 1
        = ((hdr.length + 2 + pre.flatten.length) + 1) + 27 by omega]
    rw [← List.drop_drop, hdropT, List.drop_left' (show tariffLineC7.length = 27 from rfl)]
    simp
  have hdropZ : st.buffer.drop ((hdr.length + 2 + pre.flatten.length + 27 + post.flatten.length) + 1) =
      33 :: (tr ++ [13, 10]) := by
    rw [show (hdr.length + 2 + pre.flatten.length + 27 + post.flatten.length) + 1
        = ((hdr.length + 2 + pre.flatten.length + 27) + 1) + post.flatten.length by omega]
    rw [← List.drop_drop, hdropPost, show post.flatten ++ (33 :: (tr ++ [13, 10]) ++ [])
        = post.flatten ++ 33 :: (tr ++ [13, 10]) by simp]
    rw [List.drop_left]
  have hZlt : hdr.length + 2 + pre.flatten.length + 27 + post.flatten.length + 1
      < st.buffer.length := by
    have h1 := List.length_drop
      ((hdr.length + 2 + pre.flatten.length + 27 + post.flatten.length) + 1) st.buffer
    rw [hdropZ] at h1
    simp only [List.length_cons, List.length_append] at h1
    omega
  have hmain : ∀ d0 : P1Data,
      (linesLoop st.buffer (st.bufferIndex : Int) (st.buffer.length + 2)
        (idxOf st.buffer 10 0) d0).DeliveredTariff1 = 1234567 := by
    intro d0
    rw [hE, hbi]
    rw [show st.buffer.length + 2 = (st.buffer.length + 1) + 1 by omega]
    rw [linesLoop_fold st.buffer _ (st.buffer.length + 1) (hdr.length + 2) d0 hok hdropLs hcount]
    rw [foldLines_append st.buffer pre _ (hdr.length + 2) d0]
    simp only [foldLines, show tariffLineC7.length = 27 from rfl]
    rw [foldLines_append st.buffer post _ _ _]
    simp only [foldLines]
    rw [processDataLine_preserve_DT1 _ _ _ _ (by
      rw [show toU16 ((hdr.length + 2 + pre.flatten.length + 27 + post.flatten.length + 1 : Nat) : Int)
          = hdr.length + 2 + pre.flatten.length + 27 + post.flatten.length + 1 by
        unfold toU16
        omega]
      unfold startsWith
      rw [hdropZ]
      simp [OBIS_TARIFF1_DELIVERED, List.isPrefixOf])]
    rw [foldLines_preserve_DT1 st.buffer post (by omega) _ _ (33 :: (tr ++ [13, 10]) ++ [])
      hdropPost hpost9]
    exact processDataLine_tariffC7 st.buffer (hdr.length + 2 + pre.flatten.length + 1) _ _
      (post.flatten ++ 33 :: (tr ++ [13, 10])) hdropT (by omega)
  exact hmain _

/-- The meter state of the C7 witness: a completed telegram
`/h\r\n` + `1-0:1.8.1(001234.567*kWh)\r\n` + `!0000\r\n`, with
`bufferIndex` at the final write position 37. -/
def stC7 : MeterState := {freshMeter with buffer := [47, 104, 13, 10] ++ tariffLineC7 ++ [33, 48, 48, 48, 48, 13, 10], bufferIndex := 37}

set_option maxRecDepth 1000000 in
/-- C7 witness: the theorem at the concrete telegram of `stC7`
(header `h`, no lines before or after the energy line, trailer
digits `0000`). -/
theorem claim_C7_witness :
    stC7.buffer = 47 :: [104] ++ 13 :: 10 ::
        (([] : List (List Nat)) ++ tariffLineC7 ::
          (([] : List (List Nat)) ++ [33 :: ([48, 48, 48, 48] ++ [13, 10])])).flatten ∧
      (processTelegram stC7).1.DeliveredTariff1 = 1234567 :=
  ⟨by decide,
    claim_C7_delivered_tariff1 stC7 [104] [] [] [48, 48, 48, 48] (by decide) (by simp)
      (by simp) (by simp) (by decide) (by decide) (by decide) (by decide)⟩

/-! Claims C2, C4, C5 and C10. -/

/-- C2 counterexample: for the single byte 0x80 the code's CRC differs
from the reference CRC that XORs each byte only into the low byte of
the running value: the `(uint16_t)` cast of the signed `char` 0x80
sign-extends to 0xFF80 and flips the high byte too.  So the claim's
universally quantified statement ("for every byte sequence") is false. -/
theorem claim_C2_counterexample : CRC16_IBM_REVERSED [128] ≠ crc16_reference [128] := by decide

/-- C2 amended: for every byte sequence whose bytes are all below 0x80
(in particular every ASCII telegram), `CRC16_IBM_REVERSED` computes the
reference reversed CRC-16 with polynomial 0xA001 and initial value 0,
XORing each byte into the low byte of the running value; it is pure and
total.  For bytes at or above 0x80 the signed-`char` conversion
sign-extends and also XORs 0xFF into the high byte, so the computed
value differs from the reference. -/
theorem claim_C2_amended (l : List Nat) (h : ∀ x ∈ l, x < 128) :
    CRC16_IBM_REVERSED l = crc16_reference l := by
  unfold CRC16_IBM_REVERSED crc16_reference
  exact crc_eq_reference_aux l h 0

/-- C2 witness: the amended theorem applied to the concrete ASCII bytes
of a telegram fragment. -/
theorem claim_C2_witness :
    (∀ x ∈ [47, 104, 33], x < 128) ∧
      CRC16_IBM_REVERSED [47, 104, 33] = crc16_reference [47, 104, 33] :=
  ⟨by decide, claim_C2_amended [47, 104, 33] (by decide)⟩

/-- The concrete failure-event-log line of claim C4's counterexample:
`1-0:99.97.0(4)(0-0:96.7.19)` followed by four
`(210101120000W)(0000000337*s)` timestamp/duration groups — a declared
count of 4 with four groups present. -/
def logLineC4 : List Nat :=
  OBIS_POWER_LOG ++ [40, 52, 41] ++
    [40, 48, 45, 48, 58, 57, 54, 46, 55, 46, 49, 57, 41] ++
    [40, 50, 49, 48, 49, 48, 49, 49, 50, 48, 48, 48, 48, 87, 41,
     40, 48, 48, 48, 48, 48, 48, 48, 51, 51, 55, 42, 115, 41] ++
    [40, 50, 49, 48, 49, 48, 49, 49, 50, 48, 48, 48, 48, 87, 41,
     40, 48, 48, 48, 48, 48, 48, 48, 51, 51, 55, 42, 115, 41] ++
    [40, 50, 49, 48, 49, 48, 49, 49, 50, 48, 48, 48, 48, 87, 41,
     40, 48, 48, 48, 48, 48, 48, 48, 51, 51, 55, 42, 115, 41] ++
    [40, 50, 49, 48, 49, 48, 49, 49, 50, 48, 48, 48, 48, 87, 41,
     40, 48, 48, 48, 48, 48, 48, 48, 51, 51, 55, 42, 115, 41]

set_option maxRecDepth 100000 in
/-- C4 counterexample: on a failure-event-log line declaring 4
occurrences (capacity is 3), the decoder's loop extracts 4
(timestamp, duration) entries — the write of the fourth targets
`PowerFailureLogs[3]`, beyond the fixed capacity — refuting "extracts
at most 3 entries and writes no entry beyond the list's capacity". -/
theorem claim_C4_counterexample :
    powerLogCount logLineC4 0 = 4 ∧ ¬ (powerLogEntries logLineC4 0).length ≤ 3 := by decide

/-- C4 amended: the loop of the `OBIS_POWER_LOG` branch does not stop
at the capacity of the destination list: it always performs exactly the
declared occurrence count (narrowed to `uint8_t`) of (timestamp,
duration) extractions, and the write of entry `i` targets
`PowerFailureLogs[i]`, which for a declared count above 3 is an
out-of-bounds write in the C code (the model's bounded list itself
always keeps its fixed length, dropping such writes). -/
theorem claim_C4_amended (buf : List Nat) (s : Int) (arr ws : List PowerFailureLogStruct) :
    (powerLogEntries buf s).length = powerLogCount buf s ∧
      (applyLogWrites arr ws).length = arr.length :=
  ⟨powerLogGo_length buf _ _, applyLogWrites_length arr ws⟩

/-- The concrete telegram of claim C5: header `/h`, the single data
line `1-0:22.7.0(00.123*kW)` carrying the per-phase produced-power
registry code `OBIS_POWER_NEG_L1`, and the trailer line `!0000`. -/
def tgC5 : List Nat :=
  [47, 104, 13, 10] ++ OBIS_POWER_NEG_L1 ++
    [40, 48, 48, 46, 49, 50, 51, 42, 107, 87, 41, 13, 10] ++
    [33, 48, 48, 48, 48, 13, 10]

set_option maxRecDepth 1000000 in
/-- C5: evaluating the decoder on a telegram whose data line starts
with the produced-power registry code `1-0:22.7.0` leaves every
`PowerProduced` field at its prior value 0 — the value 123 is never
stored, because the dispatch chain tests the delivered-power codes
`1-0:21.7.0/41.7.0/61.7.0` a second time (dead branches) instead of
the produced-power codes, which are never tested.  The claim is right
about the intended one-to-one registry and the code is wrong. -/
theorem claim_C5_produced_power_dead :
    (processTelegram {freshMeter with buffer := tgC5, bufferIndex := 33}).1.PowerProduced
      = [0, 0, 0] := by decide

/-- C10: after `ProcessTelegram` returns, `DataReady` is false and the
accumulator buffer is all zeroes (the model's empty content list), the
returned Reading is the stored `data` member, and `bufferIndex` is not
reset: `GetBufferLength` still returns the same value as before the
call — for a completed telegram, the final write position, which is
nonzero — until the next start marker restarts accumulation. -/
theorem claim_C10_frame (st : MeterState) :
    getBufferLength (processTelegram st).2 = getBufferLength st ∧
      (processTelegram st).2.dataReady = false ∧
      (processTelegram st).2.buffer = [] ∧
      (processTelegram st).2.data = (processTelegram st).1 :=
  ⟨rfl, rfl, rfl, rfl⟩

end P1


